import Mathlib

/-!
# OTP server: session store, rate limiter, transactions, tokens and OTP creation

A shallow embedding of `internal/redis/otp.go`, `internal/redis/ratelimit.go`,
`internal/middleware/transaction.go`, `internal/token`, `middleware/token.go`, the
authentication middleware, the OTP repository, the verify-otp handler, the rate-limit
middleware, the search parameters and the phone-number check, together with the
properties of the login-session state machine, of the request counter, of the
transaction lifecycle, of the bearer tokens, of OTP creation and of request validation.

Modelling conventions.

* The Redis keyspace is a function from keys to optional entries.  The value of a
  session key is the decoded `UserLoginSession` record.  The script passes the numbers
  of the record through `cjson.decode` and `cjson.encode`, which hold a number in a
  double and write it with 14 significant digits, and `json.Unmarshal` reads a `uint`
  from plain digits only: an integer below `jsonExactBound` (10^14, which is below
  2^53) comes back unchanged, a larger one need not.  The operations are modelled on
  records whose numbers are carried unchanged, and every statement about a returned
  or stored number assumes that the numbers of the session lie below that bound.
* Every Go function takes the store as an argument and hands the new store back
  next to its Go results.  A Go `error` is its message; `nil` is `none`.
* Redis commands run without a network or server failure.  The client hands back the
  reply of a command with a `nil` error, except that go-redis reports a `nil` reply
  of the Lua script as the error `redis.Nil`, whose message is "redis: nil"
  (`evalResult`).
* The key drawn by `uuid.New()` is an argument of `CreateUserLoginSession`.
* Clock readings (`time.Now()`) are arguments, in nanoseconds since the epoch unless
  said otherwise; 64-bit arithmetic on durations wraps.
* The JWT library is a parameter (`JwtLib`): signing, serialization and parsing.  Of
  net/http the model keeps the status line: the first `WriteHeader` decides it, a body
  written first sends 200, and so does a handler chain that writes nothing.
  Informational 1xx codes and the panic of net/http on a code outside 100..999 are
  not modelled.
* Database queries succeed; a table is the list of its rows.
* The random source is a function from the position of a draw to its raw outcome; the
  functions of package `net` are a parameter (`NetLib`).
* A regular expression is a list of character classes with repetition bounds, matched
  from the start to the end of the text.
-/

namespace OtpServer

/-! ## Data model (`otp.go`, lines 12-26) -/

/-- The `LoginState` enumeration: `LoginStateWaiting = 0`, `LoginStateSuccess = 1`,
`LoginStateCorrupted = 2`. -/
inductive LoginState where
  | Waiting
  | Success
  | Corrupted
deriving DecidableEq, Repr

/-- The `UserLoginSession` record.  The `uint` fields are natural numbers; the JSON
codecs of the session carry them unchanged below `jsonExactBound`. -/
structure UserLoginSession where
  Tries : Nat
  OtpID : Nat
  Code : String
  PhoneNumber : String
  State : LoginState
deriving DecidableEq, Repr

/-- A Go `error`, identified by its message. -/
abbrev Error := String

/-- A session key of the keyspace: the stored record and its time to live in seconds. -/
structure Entry where
  session : UserLoginSession
  ttl : Nat
deriving DecidableEq, Repr

/-- The part of the Redis keyspace that holds login sessions. -/
abbrev Store := String → Option Entry

/-- Redis `SET key value EX seconds`. -/
def Store.set (s : Store) (key : String) (session : UserLoginSession) (seconds : Nat) : Store :=
  fun k => if k = key then some ⟨session, seconds⟩ else s k

/-! ## Operations (`otp.go`, lines 28-110) -/

/-- Go `SetUserLoginSession`: stores the session under `key` with a 3-minute expiry. -/
def SetUserLoginSession (s : Store) (key : String) (session : UserLoginSession) :
    Store × Option Error :=
  (s.set key session (3 * 60), none)

/-- Go `CreateUserLoginSession`: `key` is the string of the freshly drawn UUID. -/
def CreateUserLoginSession (s : Store) (key : String) (otpID : Nat) (code : String) :
    Store × String × Option Error :=
  let session : UserLoginSession :=
    { Tries := 0, OtpID := otpID, Code := code, PhoneNumber := "", State := LoginState.Waiting }
  let r := SetUserLoginSession s key session
  (r.1, key, r.2)

/-- The bound below which an integer passes the JSON codecs of the session unchanged:
`cjson` holds a number in a double and writes it with 14 significant digits, so an
integer below 10^14 is written in full and `json.Unmarshal` reads it back into a `uint`
as it was. -/
def jsonExactBound : Nat := 100000000000000

/-- The Lua script `luaIncrementTries`, run atomically by Redis: the new keyspace and
the reply (`none` for the Lua `nil`).  The arithmetic is that of the script for
`tries + 1` and `otp_id` below `jsonExactBound`. -/
def luaIncrementTries (s : Store) (key : String) : Store × Option UserLoginSession :=
  match s key with
  | none => (s, none)
  | some e =>
    let data : UserLoginSession := { e.session with Tries := e.session.Tries + 1 }
    let data : UserLoginSession :=
      if data.Tries > 3 then { data with State := LoginState.Corrupted } else data
    (s.set key data 180, some data)

/-- The client call `Eval(...).Result()` on the reply of the script: the result and the
error.  go-redis reports the Lua `nil` as the error `redis.Nil` next to a nil result. -/
def evalResult (reply : Option UserLoginSession) : Option UserLoginSession × Option Error :=
  match reply with
  | none => (none, some "redis: nil")
  | some session => (some session, none)

/-- Go `IncreaseUserLoginTries`: the new store, the returned session pointer and the
error.  The reply of the script is a string and, for numbers below `jsonExactBound`,
`json.Unmarshal` reads the record back, so those two error returns are not taken. -/
def IncreaseUserLoginTries (s : Store) (key : String) :
    Store × Option UserLoginSession × Option Error :=
  let r := luaIncrementTries s key
  let result := evalResult r.2
  match result.2 with
  | some err => (r.1, none, some err)
  | none =>
    match result.1 with
    -- `result == nil` with a nil error: the client never returns it
    | none => (r.1, none, some "session not found")
    | some session =>
      match session.State with
      | LoginState.Success => (r.1, some session, some "invalid code")
      | LoginState.Corrupted => (r.1, some session, some "invalid code")
      | LoginState.Waiting => (r.1, some session, none)

/-- Go `CheckUserLoginCode`: the new store, the returned otp id and the error. -/
def CheckUserLoginCode (s : Store) (token code : String) : Store × Nat × Option Error :=
  let r := IncreaseUserLoginTries s token
  match r.2.2 with
  | some err => (r.1, 0, some err)
  | none =>
    match r.2.1 with
    -- a nil session with a nil error: `IncreaseUserLoginTries` never returns it
    | none => (r.1, 0, some "nil pointer dereference")
    | some session =>
      if session.Code ≠ code then (r.1, 0, some "invalid code")
      else
        let session : UserLoginSession := { session with State := LoginState.Success }
        let w := SetUserLoginSession r.1 token session
        (w.1, session.OtpID, w.2)

/-! ## Rate limiter (`ratelimit.go`, lines 9-27) -/

/-- A counter key of the keyspace: its integer value and the time, in seconds on the
server clock, at which it expires (`none`: no expiry set). -/
structure Counter where
  count : Int
  expireAt : Option Nat
deriving DecidableEq, Repr

/-- The part of the Redis keyspace that holds rate-limit counters. -/
abbrev CounterStore := String → Option Counter

/-- The largest value of a signed 64-bit integer. -/
def maxInt64 : Int := 9223372036854775807

/-- Two's-complement wrap of an integer to 64 bits (Go `int`, `int64`, `time.Duration`). -/
def wrapInt64 (x : Int) : Int :=
  (x + 9223372036854775808) % 18446744073709551616 - 9223372036854775808

/-- The counter under `key` as seen at time `now`: an expired key is absent.  Redis
takes a key for expired once the clock is past its expiry time (`now > when`). -/
def CounterStore.get (s : CounterStore) (now : Nat) (key : String) : Option Counter :=
  match s key with
  | none => none
  | some c =>
    match c.expireAt with
    | none => some c
    | some t => if now ≤ t then some c else none

/-- Redis `INCR key` at time `now`: a missing key counts from 0 and gets no expiry, an
existing key keeps its expiry, and the increment is refused at the 64-bit limit. -/
def redisIncr (s : CounterStore) (now : Nat) (key : String) :
    CounterStore × Except Error Int :=
  match s.get now key with
  | none => (fun k => if k = key then some ⟨1, none⟩ else s k, Except.ok 1)
  | some c =>
    if c.count = maxInt64 then
      (s, Except.error "ERR increment or decrement would overflow")
    else
      (fun k => if k = key then some ⟨c.count + 1, c.expireAt⟩ else s k,
        Except.ok (c.count + 1))

/-- Redis `EXPIRE key seconds` at time `now`: no effect on a missing key, deletion for a
non-positive time to live, a new expiry otherwise. -/
def redisExpire (s : CounterStore) (now : Nat) (key : String) (seconds : Int) : CounterStore :=
  match s.get now key with
  | none => s
  | some c =>
    if seconds ≤ 0 then fun k => if k = key then none else s k
    else fun k => if k = key then some ⟨c.count, some (now + seconds.toNat)⟩ else s k

/-- The duration `time.Duration(windowSeconds)*time.Second`, in nanoseconds. -/
def windowDuration (windowSeconds : Int) : Int :=
  wrapInt64 (windowSeconds * 1000000000)

/-- The whole seconds the client sends to `EXPIRE` for a duration: a positive duration
below one second is rounded up to 1, any other is truncated. -/
def formatSec (dur : Int) : Int :=
  if 0 < dur ∧ dur < 1000000000 then 1 else Int.tdiv dur 1000000000

/-- Go `CheckRateLimit` at time `now` (the pipeline `INCR`, `EXPIRE` runs as one batch): the
new keyspace, `allowed`, `remaining` and the error. -/
def CheckRateLimit (s : CounterStore) (now : Nat) (key : String)
    (maxRequests windowSeconds : Int) : CounterStore × Bool × Int × Option Error :=
  let incr := redisIncr s now key
  let s' := redisExpire incr.1 now key (formatSec (windowDuration windowSeconds))
  match incr.2 with
  | Except.error err => (s', false, 0, some err)
  | Except.ok count =>
    let remaining := wrapInt64 (maxRequests - wrapInt64 count)
    let remaining := if remaining < 0 then 0 else remaining
    (s', decide (count ≤ maxRequests), remaining, none)

/-! ## Concurrent `CheckUserLoginCode` calls -/

/-- The progress of one in-flight `CheckUserLoginCode` call: not started, between the
script and the `Success` write-back (holding the session the script returned, already
set to `Success`), or returned. -/
inductive CallState where
  | start (code : String)
  | writing (session : UserLoginSession)
  | returned (otpID : Nat) (err : Option Error)
deriving DecidableEq, Repr

/-- One atomic step of a call on `token`: the script with the code comparison, or the
write-back with the return. -/
def CallState.step (token : String) (s : Store) : CallState → Store × CallState
  | CallState.start code =>
    let r := IncreaseUserLoginTries s token
    match r.2.2 with
    | some err => (r.1, CallState.returned 0 (some err))
    | none =>
      match r.2.1 with
      | none => (r.1, CallState.returned 0 (some "nil pointer dereference"))
      | some session =>
        if session.Code ≠ code then (r.1, CallState.returned 0 (some "invalid code"))
        else (r.1, CallState.writing { session with State := LoginState.Success })
  | CallState.writing session =>
    let w := SetUserLoginSession s token session
    (w.1, CallState.returned session.OtpID w.2)
  | CallState.returned otpID err => (s, CallState.returned otpID err)

/-- The store and the calls in flight on one token. -/
structure World where
  store : Store
  calls : List CallState

/-- The scheduler lets call number `i` take its next step. -/
def World.step (token : String) (w : World) (i : Nat) : World :=
  match w.calls[i]? with
  | none => w
  | some c =>
    let r := c.step token w.store
    { store := r.1, calls := w.calls.set i r.2 }

/-- A schedule: the calls that take a step, in order. -/
def World.run (token : String) (w : World) (schedule : List Nat) : World :=
  schedule.foldl (World.step token) w

/-- The calls that have returned an otp id with a nil error. -/
def World.successes (w : World) : List Nat :=
  w.calls.filterMap fun c =>
    match c with
    | CallState.returned otpID none => some otpID
    | _ => none

/-- A store holding one waiting session under the token `k`. -/
def waitingSession (tries : Nat) : Store :=
  fun k => if k = "k" then
    some ⟨{ Tries := tries, OtpID := 7, Code := "ABC123", PhoneNumber := "",
            State := LoginState.Waiting }, 180⟩
  else none

/-- Two concurrent calls on the token `k`. -/
def twoCalls (tries : Nat) (code₁ code₂ : String) : World :=
  { store := waitingSession tries, calls := [CallState.start code₁, CallState.start code₂] }

/-! ## Transaction middleware (`middleware/transaction.go`, lines 15-89) -/

/-- The `http.ResponseWriter` of net/http as far as the status line goes: the status
already sent, `none` while no header has been written. -/
structure ResponseWriter where
  wroteHeader : Option Int
deriving DecidableEq, Repr

/-- The `WriteHeader` of net/http: the first call decides the status, a later call is
ignored. -/
def ResponseWriter.WriteHeader (w : ResponseWriter) (code : Int) : ResponseWriter :=
  match w.wroteHeader with
  | none => { wroteHeader := some code }
  | some _ => w

/-- The `Write` of net/http: a body written before any header sends status 200. -/
def ResponseWriter.Write (w : ResponseWriter) : ResponseWriter :=
  match w.wroteHeader with
  | none => { wroteHeader := some 200 }
  | some _ => w

/-- The call `http.Error(w, msg, code)`: `WriteHeader(code)`, then the message as body. -/
def httpError (w : ResponseWriter) (code : Int) : ResponseWriter :=
  (w.WriteHeader code).Write

/-- The status the client receives once the handler chain has returned: net/http sends
200 when nothing was written. -/
def ResponseWriter.statusSent (w : ResponseWriter) : Int :=
  match w.wroteHeader with
  | none => 200
  | some code => code

/-- The wrapper `responseWriter`: the wrapped writer and the captured status code. -/
structure responseWriter where
  ResponseWriter : ResponseWriter
  statusCode : Int
deriving DecidableEq, Repr

/-- The method `WriteHeader` of the wrapper (lines 20-23). -/
def responseWriter.WriteHeader (rw : responseWriter) (code : Int) : responseWriter :=
  { ResponseWriter := rw.ResponseWriter.WriteHeader code, statusCode := code }

/-- The method `Write` of the wrapper (lines 25-30). -/
def responseWriter.Write (rw : responseWriter) : responseWriter :=
  { ResponseWriter := rw.ResponseWriter.Write,
    statusCode := if rw.statusCode = 0 then 200 else rw.statusCode }

/-- A call of a handler on the writer it was given. -/
inductive WriterCall where
  | WriteHeader (code : Int)
  | Write
deriving DecidableEq, Repr

/-- The behaviour of a wrapped handler: its calls on the writer, in order, and the value
it panics with at the end, if it panics. -/
structure Handler where
  calls : List WriterCall
  panicValue : Option String
deriving DecidableEq, Repr

/-- The wrapper after the calls of the handler. -/
def responseWriter.serve (rw : responseWriter) (calls : List WriterCall) : responseWriter :=
  calls.foldl
    (fun rw call =>
      match call with
      | WriterCall.WriteHeader code => rw.WriteHeader code
      | WriterCall.Write => rw.Write)
    rw

/-- A call on the transaction. -/
inductive TxCall where
  | Commit
  | Rollback
deriving DecidableEq, Repr

/-- What one request through the middleware leaves: the response writer, the calls made
on the transaction, whether the wrapped handler ran, and the value of the panic that
leaves the middleware, if any. -/
structure Served where
  w : ResponseWriter
  txCalls : List TxCall
  nextServed : Bool
  panicValue : Option String
deriving DecidableEq, Repr

/-- Go `Transaction` (lines 35-89) for one request: `beginErr` is `tx.Error` after
`GetTransaction`, `commitErr` and `rollbackErr` are the errors `Commit` and `Rollback`
return when called, `next` is the wrapped handler. -/
def Transaction (beginErr commitErr rollbackErr : Option Error) (next : Handler)
    (w : ResponseWriter) : Served :=
  match beginErr with
  | some _ =>
    { w := httpError w 500, txCalls := [], nextServed := false, panicValue := none }
  | none =>
    let rw : responseWriter := { ResponseWriter := w, statusCode := 0 }
    let rw := rw.serve next.calls
    match next.panicValue with
    | some v =>
      -- the deferred function: recover, roll back (an error is only logged), panic again
      let _ := rollbackErr
      { w := rw.ResponseWriter, txCalls := [TxCall.Rollback], nextServed := true,
        panicValue := some v }
    | none =>
      if rw.statusCode ≥ 200 ∧ rw.statusCode < 300 then
        match commitErr with
        | some _ =>
          { w := httpError rw.ResponseWriter 500, txCalls := [TxCall.Commit],
            nextServed := true, panicValue := none }
        | none =>
          { w := rw.ResponseWriter, txCalls := [TxCall.Commit], nextServed := true,
            panicValue := none }
      else
        let _ := rollbackErr
        { w := rw.ResponseWriter, txCalls := [TxCall.Rollback], nextServed := true,
          panicValue := none }

/-! ## Tokens (`token/token.go`, `token/jwt.go`, `middleware/token.go`) -/

/-- The type `Audiance`, an `int`. -/
abbrev Audiance := Int

/-- The constant `AudianceAdmin`, `iota + 1`. -/
def AudianceAdmin : Audiance := 1

/-- The constant `AudianceUser`. -/
def AudianceUser : Audiance := 2

/-- The method `String` of `Audiance`. -/
def Audiance.String (a : Audiance) : String :=
  if a = AudianceAdmin then "admin" else if a = AudianceUser then "user" else ""

/-- The struct `Claims`: of the embedded `jwt.RegisteredClaims` the two fields the code
sets, as whole seconds since the epoch (`nil` is `none`), then `ID` and `Audience`. -/
structure Claims where
  ExpiresAt : Option Int
  IssuedAt : Option Int
  ID : Nat
  Audience : Audiance
deriving DecidableEq, Repr

/-- A JSON value of a token payload. -/
inductive JsonValue where
  | number (n : Int)
  | string (s : String)
deriving DecidableEq, Repr

/-- The JSON object `encoding/json` writes for a `Claims` value: `exp` and `iat` are
`omitempty`; `id` is a `uint`; `aud` is the field of type `Audiance`, an `int` without
a marshalling method of its own, which shadows the `aud` of the embedded struct. -/
def marshalClaims (c : Claims) : List (String × JsonValue) :=
  (match c.ExpiresAt with
    | none => []
    | some exp => [("exp", JsonValue.number exp)])
  ++ (match c.IssuedAt with
    | none => []
    | some iat => [("iat", JsonValue.number iat)])
  ++ [("id", JsonValue.number c.ID), ("aud", JsonValue.number c.Audience)]

/-- The settings `setting.Config`: the secret key and the token lifetime in minutes. -/
structure Config where
  secretKey : String
  accessTokenExpire : Nat
deriving DecidableEq, Repr

/-- The JWT library as the code uses it: the HS256 signature of a claims value under a
key, the compact serialization of claims and signature, and its parser (`none` for a
malformed token). -/
structure JwtLib where
  sign : String → Claims → String
  encode : Claims → String → String
  decode : String → Option (Claims × String)

/-- The call `jwt.NewNumericDate` on a time in nanoseconds: the time truncated to whole
seconds. -/
def NewNumericDate (t : Int) : Int :=
  t / 1000000000

/-- The claims built by `GenerateToken` (lines 34-44) at time `now`, in nanoseconds: the
lifetime is `time.Duration(expireDuration) * time.Minute` in 64-bit arithmetic. -/
def newClaims (appSettings : Config) (now : Int) (id : Nat) (audiance : Audiance) : Claims :=
  let expireDuration := appSettings.accessTokenExpire
  { ID := id,
    ExpiresAt := some (NewNumericDate
      (now + wrapInt64 (wrapInt64 expireDuration * 60000000000))),
    IssuedAt := some (NewNumericDate now),
    Audience := audiance }

/-- Go `GenerateToken` (lines 33-54) at time `now`: signing with a byte-slice key does
not fail. -/
def GenerateToken (lib : JwtLib) (appSettings : Config) (now : Int) (id : Nat)
    (audiance : Audiance) : String × Option Error :=
  let claims := newClaims appSettings now id audiance
  (lib.encode claims (lib.sign appSettings.secretKey claims), none)

/-- The call `jwt.ParseWithClaims` at time `now`, in nanoseconds, with a key function
that returns `key`: the token is parsed, its signature is checked, and an `exp` claim
must lie after `now`. -/
def ParseWithClaims (lib : JwtLib) (key : String) (now : Int) (tokenString : String) :
    Except Error Claims :=
  match lib.decode tokenString with
  | none => Except.error "token is malformed"
  | some (claims, signature) =>
    if lib.sign key claims ≠ signature then Except.error "token signature is invalid"
    else
      match claims.ExpiresAt with
      | none => Except.ok claims
      | some exp =>
        if now < exp * 1000000000 then Except.ok claims
        else Except.error "token has invalid claims: token is expired"

/-- Go `strings.HasPrefix`. -/
def HasPrefix (s pre : String) : Bool :=
  pre.data.isPrefixOf s.data

/-- Go `strings.TrimPrefix`. -/
def TrimPrefix (s pre : String) : String :=
  if HasPrefix s pre then String.mk (s.data.drop pre.data.length) else s

/-- Go `strings.Split` with a one-character separator. -/
def Split (s : String) (sep : Char) : List String :=
  (s.data.splitOn sep).map String.mk

/-- A request: its headers, by name, and the address of the peer. -/
structure Request where
  Header : String → Option String
  RemoteAddr : String := ""

/-- The call `r.Header.Get(name)`: the empty string for a missing header. -/
def Request.HeaderGet (r : Request) (name : String) : String :=
  match r.Header name with
  | none => ""
  | some v => v

/-- The result of a Go call that may panic. -/
inductive Outcome (α : Type) where
  | ok (a : α)
  | error (err : Error)
  | panic (msg : String)
deriving DecidableEq, Repr

/-- Go `ParseTokenFromHeader` (`token/jwt.go`, lines 60-85) at time `now`. -/
def ParseTokenFromHeader (lib : JwtLib) (appSettings : Config) (now : Int) (r : Request)
    (headerName : String) : Outcome Claims :=
  let authHeader := r.HeaderGet headerName
  if authHeader = "" then
    Outcome.error ("no authorization header '" ++ headerName ++ "'")
  else if ¬ HasPrefix authHeader "Bearer " then
    Outcome.error "invalid authorization header format: missing Bearer prefix"
  else
    let tokenString := TrimPrefix authHeader "Bearer "
    let tokenBytes := appSettings.secretKey
    match ParseWithClaims lib tokenBytes now tokenString with
    | Except.error err => Outcome.error ("invalid token: " ++ err)
    | Except.ok claims => Outcome.ok claims

/-- Go `JWTService.ParseToken` (`token/jwt.go`, lines 56-58). -/
def JWTService.ParseToken (lib : JwtLib) (appSettings : Config) (now : Int) (r : Request) :
    Outcome Claims :=
  ParseTokenFromHeader lib appSettings now r "Authorization"

/-- Go `ParseToken` of the older package (`middleware/token.go`, lines 42-59) at time
`now`; its `Claims` has no `Audience` field of its own, the field of the shared record
is not read.  The index expression `[1]` panics when the split has one element. -/
def ParseToken (lib : JwtLib) (secretKey : String) (now : Int) (r : Request) :
    Outcome Claims :=
  let authHeader := r.HeaderGet "Authorization"
  if authHeader = "" then Outcome.error "no authorization header"
  else
    match (Split authHeader ' ')[1]? with
    | none => Outcome.panic "runtime error: index out of range [1] with length 1"
    | some tokenString =>
      match ParseWithClaims lib secretKey now tokenString with
      | Except.error _ => Outcome.error "invalid token"
      | Except.ok claims => Outcome.ok claims

/-! ## Authentication middleware (`middleware/admin.go`, `middleware/user.go`) -/

/-- The model `Admin`: times in nanoseconds, `PasswordResetAt` is `none` when the
`sql.NullTime` is not valid. -/
structure Admin where
  ID : Nat
  CreatedAt : Int
  Username : String
  Role : Int
  HashedPassword : String
  PasswordResetAt : Option Int
deriving DecidableEq, Repr

/-- The model `User`. -/
structure User where
  ID : Nat
  CreatedAt : Int
  PhoneNumber : String
  FirstName : String
  LastName : String
  Status : Int
deriving DecidableEq, Repr

/-- The constant `UserStatusDisabled`. -/
def UserStatusDisabled : Int := 2

/-- Go `gormAdmin.GetByID` on the rows of the admin table: no admin and no error when
the id matches no row. -/
def gormAdmin.GetByID (admins : List Admin) (adminID : Nat) : Option Admin × Option Error :=
  (admins.find? (fun a => a.ID == adminID), none)

/-- Go `gormUser.GetByID` on the rows of the user table: `First` reports a missing row
as an error. -/
def gormUser.GetByID (users : List User) (id : Nat) : Option User × Option Error :=
  match users.find? (fun u => u.ID == id) with
  | none => (none, some "record not found")
  | some user => (some user, none)

/-- Go `gormAdmin.Update` (`repository/admin.go`, lines 55-84) on one admin row at time
`now`, the new password already hashed: a new password stamps `PasswordResetAt`. -/
def gormAdmin.Update (admin : Admin) (now : Int) (username : Option String)
    (role : Option Int) (newHashedPassword : Option String) : Admin :=
  let admin := match username with
    | none => admin
    | some u => { admin with Username := u }
  let admin := match role with
    | none => admin
    | some r => { admin with Role := r }
  match newHashedPassword with
  | none => admin
  | some h => { admin with HashedPassword := h, PasswordResetAt := some now }

/-- The answer of an authentication middleware: a response written with `http.Error`,
the next handler served with the record put in the request context, or a panic. -/
inductive Answer (α : Type) where
  | respond (status : Int)
  | next (record : α)
  | panic (msg : String)
deriving DecidableEq, Repr

/-- Go `AdminAuthenticator.Authenticate` (`middleware/admin.go`, lines 25-66) at time
`now` on the rows of the admin table. -/
def AdminAuthenticator.Authenticate (lib : JwtLib) (appSettings : Config)
    (admins : List Admin) (now : Int) (r : Request) : Answer Admin :=
  match JWTService.ParseToken lib appSettings now r with
  | Outcome.panic msg => Answer.panic msg
  | Outcome.error _ => Answer.respond 401
  | Outcome.ok claims =>
    if claims.Audience ≠ AudianceAdmin then Answer.respond 401
    else
      let found := gormAdmin.GetByID admins claims.ID
      match found.2 with
      | some _ => Answer.respond 401
      | none =>
        -- `claims.GetIssuedAt()` returns the field and a nil error
        match claims.IssuedAt with
        | none => Answer.panic "invalid memory address or nil pointer dereference"
        | some issueAtNum =>
          let issueAt := issueAtNum * 1000000000
          match found.1 with
          | none => Answer.panic "invalid memory address or nil pointer dereference"
          | some admin =>
            if issueAt < admin.CreatedAt then Answer.respond 401
            else
              match admin.PasswordResetAt with
              | some resetAt =>
                if issueAt < resetAt then Answer.respond 401 else Answer.next admin
              | none => Answer.next admin

/-- Go `Authenticator.Authenticate` (`middleware/user.go`, lines 25-55) at time `now` on
the rows of the user table. -/
def Authenticator.Authenticate (lib : JwtLib) (appSettings : Config)
    (users : List User) (now : Int) (r : Request) : Answer User :=
  match JWTService.ParseToken lib appSettings now r with
  | Outcome.panic msg => Answer.panic msg
  | Outcome.error _ => Answer.respond 401
  | Outcome.ok claims =>
    if claims.Audience ≠ AudianceUser then Answer.respond 401
    else
      let found := gormUser.GetByID users claims.ID
      match found.2 with
      | some _ => Answer.respond 401
      | none =>
        match found.1 with
        | none => Answer.panic "invalid memory address or nil pointer dereference"
        | some user =>
          if user.Status = UserStatusDisabled then Answer.respond 403
          else Answer.next user

/-! ## OTP repository (`repository/otp.go`, lines 44-80; `db/otp.go`, lines 40-76) -/

/-- The model `UserOtp`: a row of the OTP table, times in nanoseconds, `UsedAt` is
`none` while the column is NULL. -/
structure UserOtp where
  ID : Nat
  CreatedAt : Int
  Code : String
  UserID : Nat
  UsedAt : Option Int
deriving DecidableEq, Repr

/-- Go `gormOtp.Create` (`repository/otp.go`) at time `now` on the rows of the OTP table,
with all queries succeeding: `code` is the code drawn by `generateOTPCode`, the new row
is stamped with `now` and gets the next id.  The new table, the returned row and the
error. -/
def gormOtp.Create (table : List UserOtp) (user : User) (now : Int) (code : String) :
    List UserOtp × Option UserOtp × Option Error :=
  let twoMinutesAgo := now - 2 * 60000000000
  let tenMinutesAgo := now - 10 * 60000000000
  match table.find? (fun o =>
      decide (o.UserID = user.ID) && decide (o.CreatedAt > twoMinutesAgo)
        && decide (o.UsedAt = none)) with
  | some _ => (table, none, some "user has generated OTP within the last 2 minutes")
  | none =>
    let otpCount : Int := (table.filter (fun o =>
      decide (o.UserID = user.ID) && decide (o.CreatedAt > tenMinutesAgo))).length
    if otpCount ≥ 3 then
      (table, none, some "user has exceeded maximum OTP limit (5) within the last hour")
    else
      let otp : UserOtp :=
        { ID := table.length + 1, CreatedAt := now, Code := code, UserID := user.ID,
          UsedAt := none }
      (table ++ [otp], some otp, none)

/-- Go `CreateOTP` of the older package (`db/otp.go`), modelled like `gormOtp.Create`:
the count runs over one hour and the limit is 5. -/
def CreateOTP (table : List UserOtp) (user : User) (now : Int) (code : String) :
    List UserOtp × Option UserOtp × Option Error :=
  let twoMinutesAgo := now - 2 * 60000000000
  let oneHourAgo := now - 1 * 3600000000000
  match table.find? (fun o =>
      decide (o.UserID = user.ID) && decide (o.CreatedAt > twoMinutesAgo)
        && decide (o.UsedAt = none)) with
  | some _ => (table, none, some "user has generated OTP within the last 2 minutes")
  | none =>
    let otpCount : Int := (table.filter (fun o =>
      decide (o.UserID = user.ID) && decide (o.CreatedAt > oneHourAgo))).length
    if otpCount ≥ 5 then
      (table, none, some "user has exceeded maximum OTP limit (5) within the last hour")
    else
      let otp : UserOtp :=
        { ID := table.length + 1, CreatedAt := now, Code := code, UserID := user.ID,
          UsedAt := none }
      (table ++ [otp], some otp, none)

/-! ## OTP codes (`repository/otp.go`, lines 34-42; `db/otp.go`, lines 31-38) -/

/-- The calls `rand.Int(rand.Reader, max)` and `rand.IntN(max)`: a number below `max`
fixed by the raw outcome of the random source. -/
def randInt (raw max : Nat) : Nat :=
  raw % max

/-- Go `len` of a string: its length in bytes. -/
def len (s : String) : Nat :=
  s.utf8ByteSize

/-- The loop of `generateOTPCode` over the positions of the code: `draw i` is the raw
outcome of the random source at position `i`; an index outside `chars` panics. -/
def generateLoop (chars : String) (draw : Nat → Nat) : List Nat → Outcome (List Char)
  | [] => Outcome.ok []
  | i :: rest =>
    match chars.data[randInt (draw i) (len chars)]? with
    | none => Outcome.panic "runtime error: index out of range"
    | some c =>
      match generateLoop chars draw rest with
      | Outcome.ok cs => Outcome.ok (c :: cs)
      | Outcome.error err => Outcome.error err
      | Outcome.panic msg => Outcome.panic msg

/-- Go `generateOTPCode` of the repository package: six characters of the alphabet. -/
def repository.generateOTPCode (draw : Nat → Nat) : Outcome String :=
  let chars := "ABCDEFGHIJKLMNOPQRSTUVWXYZ0123456789"
  match generateLoop chars draw (List.range 6) with
  | Outcome.ok code => Outcome.ok (String.mk code)
  | Outcome.error err => Outcome.error err
  | Outcome.panic msg => Outcome.panic msg

/-- Go `generateOTPCode` of the older package `db`. -/
def db.generateOTPCode (draw : Nat → Nat) : Outcome String :=
  let chars := "ABCDEFGHIJKLMNOPQRSTUVWXYZ0123456789"
  match generateLoop chars draw (List.range 6) with
  | Outcome.ok code => Outcome.ok (String.mk code)
  | Outcome.error err => Outcome.error err
  | Outcome.panic msg => Outcome.panic msg

/-! ## The verify-otp handler (`router/user.go`, lines 34-39 and 146-188;
`service/user_service.go`, lines 78-116) -/

/-- Go `VerifyOTPRequest.validate`. -/
def VerifyOTPRequest.validate (code : String) : Option Error :=
  if len code ≠ 6 then some "code must be exactly 6 characters" else none

/-- The error value `ErrUserDisabled`. -/
def ErrUserDisabled : Error := "user is disabled"

/-- Go `UserServiceImpl.VerifyOTP`: the session check, then the database steps of lines
90-107 (fetch the OTP, mark it used, fetch its user), given as `consume`, then the
status check.  The new store, the user and the error. -/
def UserServiceImpl.VerifyOTP (s : Store) (consume : Nat → Except Error User)
    (token code : String) : Store × Option User × Option Error :=
  let r := CheckUserLoginCode s token code
  match r.2.2 with
  | some err => (r.1, none, some err)
  | none =>
    match consume r.2.1 with
    | Except.error err => (r.1, none, some err)
    | Except.ok user =>
      if user.Status = UserStatusDisabled then (r.1, none, some ErrUserDisabled)
      else (r.1, some user, none)

/-- Go `UserHandler.verifyOTP` at time `now`: `body` is the `code` field of the decoded
request body, `none` when the body is not valid JSON.  The new store and the status
of the response. -/
def UserHandler.verifyOTP (lib : JwtLib) (appSettings : Config) (now : Int) (s : Store)
    (consume : Nat → Except Error User) (r : Request) (body : Option String) : Store × Int :=
  let authHeader := r.HeaderGet "Authorization"
  if authHeader = "" ∨ ¬ HasPrefix authHeader "Bearer " then (s, 401)
  else
    let uidToken := TrimPrefix authHeader "Bearer "
    match body with
    | none => (s, 400)
    | some code =>
      match VerifyOTPRequest.validate code with
      | some _ => (s, 400)
      | none =>
        let v := UserServiceImpl.VerifyOTP s consume uidToken code
        match v.2.2, v.2.1 with
        | some err, _ => if err = ErrUserDisabled then (v.1, 403) else (v.1, 500)
        -- a nil user with a nil error: `VerifyOTP` never returns it
        | none, none => (v.1, 500)
        | none, some user =>
          match (GenerateToken lib appSettings now user.ID AudianceUser).2 with
          | some _ => (v.1, 500)
          | none => (v.1, 200)

/-! ## Client identity and the rate-limit middleware (`middleware/ratelimit.go`) -/

/-- The functions of package `net` the code uses: `ParseIP` (`none` for `nil`), the
method `String` of an IP (`IPString`), and `SplitHostPort`. -/
structure NetLib where
  IP : Type
  ParseIP : String → Option IP
  IPString : IP → String
  SplitHostPort : String → Except Error (String × String)

/-- Go `getClientIP` (lines 12-33). -/
def getClientIP (net : NetLib) (r : Request) (allowForwarded : Bool) : String :=
  let forwarded : Option String :=
    if allowForwarded then
      let xff := r.HeaderGet "X-Forwarded-For"
      match (if xff ≠ "" then net.ParseIP xff else none) with
      | some ip => some (net.IPString ip)
      | none =>
        let xri := r.HeaderGet "X-Real-IP"
        match (if xri ≠ "" then net.ParseIP xri else none) with
        | some ip => some (net.IPString ip)
        | none => none
    else none
  match forwarded with
  | some ip => ip
  | none =>
    match net.SplitHostPort r.RemoteAddr with
    | Except.error _ => r.RemoteAddr
    | Except.ok (ip, _) => ip

/-- Go `GetRateLimitKey` (`redis/ratelimit.go`, lines 29-31). -/
def GetRateLimitKey (pre identifier : String) : String :=
  "rate_limit:" ++ pre ++ ":" ++ identifier

/-- What the rate-limit middleware leaves for one request: the keyspace, the response
headers it set, the status it wrote (`none` when it wrote none) and the number of times
it served the next handler. -/
structure Limited where
  store : CounterStore
  headers : List (String × String)
  status : Option Int
  nextServed : Nat

/-- Go `RateLimit` (lines 35-59) for one request: `redisNow` is the clock of the store
in seconds, `now` the clock of the server in nanoseconds. -/
def RateLimit (net : NetLib) (store : CounterStore) (redisNow : Nat) (now : Int)
    (pre : String) (maxRequests windowSeconds : Int) (allowForwarded : Bool)
    (r : Request) : Limited :=
  let clientIP := getClientIP net r allowForwarded
  let key := GetRateLimitKey pre clientIP
  let c := CheckRateLimit store redisNow key maxRequests windowSeconds
  match c.2.2.2 with
  | some _ => { store := c.1, headers := [], status := some 500, nextServed := 0 }
  | none =>
    let headers :=
      [("X-RateLimit-Limit", toString maxRequests),
       ("X-RateLimit-Remaining", toString c.2.2.1),
       ("X-RateLimit-Reset",
         toString ((now + windowDuration windowSeconds) / 1000000000))]
    if ¬ c.2.1 then
      { store := c.1, headers := headers, status := some 429, nextServed := 0 }
    else
      { store := c.1, headers := headers, status := none, nextServed := 1 }

/-! ## Admin roles (`models/models.go`, lines 61-93; `middleware/admin.go`, lines 68-77) -/

/-- The constant `RoleSuperAdmin`, `iota + 1`. -/
def RoleSuperAdmin : Int := 1

/-- The constant `RoleSudoAdmin`. -/
def RoleSudoAdmin : Int := 2

/-- The constant `RoleVisitorAdmin`. -/
def RoleVisitorAdmin : Int := 3

/-- Go `AdminAuthenticator.AuthorizeSudo`: `admin` is what `GetAdminFromRequest` finds
in the request context. -/
def AdminAuthenticator.AuthorizeSudo (admin : Option Admin) : Answer Admin :=
  match admin with
  | none => Answer.respond 403
  | some a => if a.Role > RoleSudoAdmin then Answer.respond 403 else Answer.next a

/-! ## Search parameters (`models/models.go`, lines 116-154; `repository/user.go`,
lines 83-90) -/

/-- The struct `UserSearchParams`: a nil pointer is `none`. -/
structure UserSearchParams where
  ID : Option Nat
  PhoneNumber : Option String
  FirstName : Option String
  LastName : Option String
  Status : Option Int
  Limit : Int
  Offset : Int
  SortBy : String
  SortOrder : String
deriving DecidableEq, Repr

/-- The index expression `m[key]` on a `map[string]bool`: `false` for a missing key. -/
def mapIndex (m : List (String × Bool)) (key : String) : Bool :=
  match m.lookup key with
  | none => false
  | some b => b

/-- Go `UserSearchParams.SetDefaults`. -/
def UserSearchParams.SetDefaults (p : UserSearchParams) : UserSearchParams :=
  let p := if p.Limit ≤ 0 ∨ p.Limit > 100 then { p with Limit := 10 } else p
  let p := if p.Offset < 0 then { p with Offset := 0 } else p
  let validSortBy : List (String × Bool) :=
    [("id", true), ("phone_number", true), ("first_name", true), ("last_name", true),
     ("status", true)]
  let p := if ¬ mapIndex validSortBy p.SortBy then { p with SortBy := "id" } else p
  let validSortOrder : List (String × Bool) := [("asc", true), ("desc", true)]
  let p := if ¬ mapIndex validSortOrder p.SortOrder then { p with SortOrder := "asc" } else p
  p

/-- The `ORDER BY` clause built by `gormUser.Search` (lines 83-90). -/
def orderClause (params : UserSearchParams) : String :=
  let params := if params.SortBy = "" then { params with SortBy := "id" } else params
  let params := if params.SortOrder = "" then { params with SortOrder := "asc" } else params
  params.SortBy ++ " " ++ params.SortOrder

/-! ## Phone numbers (`router/user.go`, lines 16-24) -/

/-- One item of an anchored regular expression: a character class repeated `min` to
`max` times. -/
structure Repeat where
  cls : Char → Bool
  min : Nat
  max : Nat

/-- Up to `n` characters of the class, then the rest of the expression. -/
def matchUpTo (cls : Char → Bool) (k : List Char → Bool) : Nat → List Char → Bool
  | 0, cs => k cs
  | n + 1, cs =>
    k cs || (match cs with
      | [] => false
      | c :: rest => cls c && matchUpTo cls k n rest)

/-- Exactly `n` characters of the class, then the rest of the expression. -/
def matchExactly (cls : Char → Bool) (k : List Char → Bool) : Nat → List Char → Bool
  | 0, cs => k cs
  | _ + 1, [] => false
  | n + 1, c :: rest => cls c && matchExactly cls k n rest

/-- A match of the items from the start of the text (`^`) to its end (`$` without the
multi-line flag). -/
def matchItems : List Repeat → List Char → Bool
  | [] => fun cs => cs.isEmpty
  | item :: items =>
    matchExactly item.cls (matchUpTo item.cls (matchItems items) (item.max - item.min))
      item.min

/-- The expression `phoneRegex`: a plus sign (`\+`), one of `[1-9]`, then 6 to 14
characters of `\d`, the ASCII digits. -/
def phoneRegex : List Repeat :=
  [⟨fun c => c == '+', 1, 1⟩,
   ⟨fun c => decide ('1' ≤ c) && decide (c ≤ '9'), 1, 1⟩,
   ⟨fun c => decide ('0' ≤ c) && decide (c ≤ '9'), 6, 14⟩]

/-- Go `RequestOTPRequest.validatePhoneNumber`: `phoneRegex.MatchString`. -/
def RequestOTPRequest.validatePhoneNumber (phoneNumber : String) : Bool :=
  matchItems phoneRegex phoneNumber.data

/-! ## Harness for the statements -/

/-- The record the script writes back for a stored record: one more try, and the
state `Corrupted` once the tries exceed 3. -/
def incremented (x : UserLoginSession) : UserLoginSession :=
  { x with Tries := x.Tries + 1,
           State := if x.Tries + 1 > 3 then LoginState.Corrupted else x.State }

/-- The state stored under a key, if the key exists. -/
def storedState (s : Store) (key : String) : Option LoginState :=
  (s key).map (fun e => e.session.State)

/-- The tries stored under a key, if the key exists. -/
def storedTries (s : Store) (key : String) : Option Nat :=
  (s key).map (fun e => e.session.Tries)

/-- Sequential `CheckUserLoginCode` calls on one token, one per submitted code: the
final store and the results in call order. -/
def checkCalls (token : String) : Store → List String → Store × List (Nat × Option Error)
  | s, [] => (s, [])
  | s, c :: cs =>
    let r := CheckUserLoginCode s token c
    let rest := checkCalls token r.1 cs
    (rest.1, r.2 :: rest.2)

/-- A session operation on a token. -/
inductive SessionOp where
  | increase
  | check (code : String)
deriving DecidableEq, Repr

/-- The store after one session operation on `token`. -/
def SessionOp.run (token : String) (s : Store) : SessionOp → Store
  | SessionOp.increase => (IncreaseUserLoginTries s token).1
  | SessionOp.check code => (CheckUserLoginCode s token code).1

/-- The store after a sequential run of session operations on `token`. -/
def runOps (token : String) (s : Store) (ops : List SessionOp) : Store :=
  ops.foldl (SessionOp.run token) s

/-- The characters of an OTP code: `A`-`Z` and `0`-`9`. -/
def isCodeChar (c : Char) : Bool :=
  (decide ('A' ≤ c) && decide (c ≤ 'Z')) || (decide ('0' ≤ c) && decide (c ≤ '9'))

/-- A 6-character code over `A`-`Z`, `0`-`9`. -/
def isOtpCode (code : String) : Bool :=
  code.length == 6 && code.toList.all isCodeChar

/-- A store holding one session that succeeded on its third try. -/
def succeededOnThirdTry : Store :=
  fun k => if k = "k" then
    some ⟨{ Tries := 3, OtpID := 7, Code := "ABC123", PhoneNumber := "",
            State := LoginState.Success }, 180⟩
  else none

/-- The record stored after one `CheckUserLoginCode` call on a stored record. -/
def afterCheck (x : UserLoginSession) (code : String) : UserLoginSession :=
  if (incremented x).State = LoginState.Waiting ∧ (incremented x).Code = code then
    { incremented x with State := LoginState.Success }
  else incremented x

/-- Sequential `CheckRateLimit` calls on one key at the given times: the results in
call order. -/
def rateLimitCalls (key : String) (maxRequests windowSeconds : Int) :
    CounterStore → List Nat → List (Bool × Int × Option Error)
  | _, [] => []
  | s, t :: ts =>
    let r := CheckRateLimit s t key maxRequests windowSeconds
    r.2 :: rateLimitCalls key maxRequests windowSeconds r.1 ts

/-- The key is alive at every call after the first: the calls fall in one window. -/
def staysLive (key : String) (maxRequests windowSeconds : Int) :
    CounterStore → List Nat → Bool
  | _, [] => true
  | _, [_] => true
  | s, t :: t' :: ts =>
    ((CheckRateLimit s t key maxRequests windowSeconds).1.get t' key).isSome
      && staysLive key maxRequests windowSeconds
          (CheckRateLimit s t key maxRequests windowSeconds).1 (t' :: ts)

/-- The value of the counter as seen at time `now`, 0 for a missing key. -/
def countAt (s : CounterStore) (now : Nat) (key : String) : Int :=
  match s.get now key with
  | none => 0
  | some c => c.count

/-- Decimal digits of an integer, with a leading `-` for a negative one. -/
def renderInt : Int → List Char
  | Int.ofNat n => Nat.toDigits 10 n
  | Int.negSucc n => '-' :: Nat.toDigits 10 (n + 1)

/-- The natural number written by a non-empty list of decimal digits. -/
def parseNat? (cs : List Char) : Option Nat :=
  if cs = [] then none
  else
    cs.foldl
      (fun acc c =>
        match acc with
        | none => none
        | some a => if c.isDigit then some (10 * a + (c.toNat - 48)) else none)
      (some 0)

/-- The integer written by `renderInt`. -/
def parseInt? : List Char → Option Int
  | '-' :: cs => (parseNat? cs).map (fun n => -(n : Int))
  | cs => (parseNat? cs).map (fun n => (n : Int))

/-- An optional integer, `~` for a missing one. -/
def renderOpt : Option Int → List Char
  | none => ['~']
  | some i => renderInt i

/-- The optional integer written by `renderOpt`. -/
def parseOpt? : List Char → Option (Option Int)
  | ['~'] => some none
  | cs => (parseInt? cs).map some

/-- The four claims as decimal fields joined by `sep`. -/
def claimFields (sep : Char) (c : Claims) : List Char :=
  renderOpt c.ExpiresAt ++ sep :: renderOpt c.IssuedAt ++ sep :: renderInt c.ID
    ++ sep :: renderInt c.Audience

/-- A small JWT library for worked examples: a token is the four claims and the
signature as dot-separated fields, and the signature of claims under a key is the key
followed by the claims. -/
def dotJwt : JwtLib where
  sign := fun key c => key ++ "#" ++ String.mk (claimFields ',' c)
  encode := fun c signature => String.mk (claimFields '.' c ++ '.' :: signature.data)
  decode := fun s =>
    match s.data.splitOn '.' with
    | [e, i, d, a, signature] =>
      match parseOpt? e, parseOpt? i, parseNat? d, parseInt? a with
      | some exp, some iat, some id, some aud =>
        some ({ ExpiresAt := exp, IssuedAt := iat, ID := id, Audience := aud },
          String.mk signature)
      | _, _, _, _ => none
    | _ => none

/-- A request with the given `Authorization` header and no other header. -/
def requestWithAuthorization (value : String) : Request :=
  { Header := fun name => if name = "Authorization" then some value else none }

/-- A request without headers. -/
def requestWithoutHeaders : Request :=
  { Header := fun _ => none }

/-- The settings of the worked examples: a secret and a lifetime of 60 minutes. -/
def exampleSettings : Config :=
  { secretKey := "secret", accessTokenExpire := 60 }

/-- An instant of the worked examples, in nanoseconds since the epoch. -/
def exampleNow : Int := 1790000000000000000

/-- The cooldown query of OTP creation: a row of the user, created after `now` minus 2
minutes, not yet used. -/
def recentUnused (userID : Nat) (now : Int) (o : UserOtp) : Bool :=
  decide (o.UserID = userID) && decide (o.CreatedAt > now - 2 * 60000000000)
    && decide (o.UsedAt = none)

/-- The challenges of a user, used or unused, created after `since`. -/
def challengesSince (userID : Nat) (since : Int) (table : List UserOtp) : Nat :=
  (table.filter (fun o => decide (o.UserID = userID) && decide (o.CreatedAt > since))).length

/-- The cooldown invariant at time `t`: every user has at most one unused challenge
created after `t` minus 2 minutes. -/
def cooldownInvariant (table : List UserOtp) (t : Int) : Prop :=
  ∀ userID : Nat, (table.filter (recentUnused userID t)).length ≤ 1

/-- A package `net` for worked examples: the only text that parses as an IP is
`203.0.113.7`, and an address splits at its last colon. -/
def exampleNet : NetLib where
  IP := String
  ParseIP := fun s => if s = "203.0.113.7" then some s else none
  IPString := fun ip => ip
  SplitHostPort := fun addr =>
    match (addr.data.reverse.splitOn ':') with
    | port :: host :: rest =>
      Except.ok (String.mk (List.intercalate [':'] (host :: rest)).reverse,
        String.mk port.reverse)
    | _ => Except.error "missing port in address"

/-- A request with the given forwarding headers and peer address. -/
def requestFrom (forwardedFor realIP : Option String) (remoteAddr : String) : Request :=
  { Header := fun name =>
      if name = "X-Forwarded-For" then forwardedFor
      else if name = "X-Real-IP" then realIP else none,
    RemoteAddr := remoteAddr }

/-- The database steps of the worked examples: every OTP belongs to the active user 7. -/
def exampleConsume : Nat → Except Error User :=
  fun _ => Except.ok ⟨7, 0, "+15551234567", "", "", 1⟩

/-- An ASCII digit. -/
def isAsciiDigit (c : Char) : Bool :=
  decide ('0' ≤ c) && decide (c ≤ '9')

/-- A phone number as the specification words it: a plus sign, one digit from 1 to 9,
then 6 to 14 ASCII digits, and nothing else. -/
def isInternationalNumber (s : String) : Bool :=
  match s.data with
  | '+' :: d :: rest =>
    (decide ('1' ≤ d) && decide (d ≤ '9')) && rest.all isAsciiDigit
      && decide (6 ≤ rest.length) && decide (rest.length ≤ 14)
  | _ => false

/-! ## Basic facts -/

theorem Store.set_same (s : Store) (key : String) (x : UserLoginSession) (n : Nat) :
    s.set key x n key = some ⟨x, n⟩ := by
  simp [Store.set]

theorem Store.set_set (s : Store) (key : String) (x y : UserLoginSession) (n m : Nat) :
    (s.set key x n).set key y m = s.set key y m := by
  funext k
  simp only [Store.set]
  split_ifs <;> rfl

theorem incremented_OtpID (x : UserLoginSession) : (incremented x).OtpID = x.OtpID := rfl

theorem incremented_Code (x : UserLoginSession) : (incremented x).Code = x.Code := rfl

theorem incremented_Tries (x : UserLoginSession) : (incremented x).Tries = x.Tries + 1 := rfl

theorem lua_absent (s : Store) (key : String) (h : s key = none) :
    luaIncrementTries s key = (s, none) := by
  simp [luaIncrementTries, h]

theorem lua_present (s : Store) (key : String) (e : Entry) (h : s key = some e) :
    luaIncrementTries s key
      = (s.set key (incremented e.session) 180, some (incremented e.session)) := by
  simp only [luaIncrementTries, h, incremented]
  split_ifs <;> rfl

theorem increase_absent (s : Store) (key : String) (h : s key = none) :
    IncreaseUserLoginTries s key = (s, none, some "redis: nil") := by
  simp [IncreaseUserLoginTries, evalResult, lua_absent s key h]

theorem increase_present (s : Store) (key : String) (e : Entry) (h : s key = some e) :
    IncreaseUserLoginTries s key
      = (s.set key (incremented e.session) 180, some (incremented e.session),
          if (incremented e.session).State = LoginState.Waiting then none
          else some "invalid code") := by
  simp only [IncreaseUserLoginTries, evalResult, lua_present s key e h]
  cases hs : (incremented e.session).State <;> simp

theorem check_absent (s : Store) (token code : String) (h : s token = none) :
    CheckUserLoginCode s token code = (s, 0, some "redis: nil") := by
  simp [CheckUserLoginCode, increase_absent s token h]

theorem check_present (s : Store) (token code : String) (e : Entry) (h : s token = some e) :
    CheckUserLoginCode s token code
      = if (incremented e.session).State = LoginState.Waiting
            ∧ (incremented e.session).Code = code then
          (s.set token { incremented e.session with State := LoginState.Success } 180,
            e.session.OtpID, none)
        else (s.set token (incremented e.session) 180, 0, some "invalid code") := by
  simp only [CheckUserLoginCode, increase_present s token e h]
  by_cases hs : (incremented e.session).State = LoginState.Waiting
  · by_cases hc : (incremented e.session).Code = code
    · simp [hs, hc, SetUserLoginSession, Store.set_set, incremented_OtpID]
    · simp [hs, hc]
  · simp [hs]

theorem incremented_waiting_iff (x : UserLoginSession) :
    (incremented x).State = LoginState.Waiting ↔ x.State = LoginState.Waiting ∧ x.Tries < 3 := by
  simp only [incremented]
  split_ifs with h
  · constructor
    · intro h'; cases h'
    · intro h'; omega
  · constructor
    · intro h'; exact ⟨h', by omega⟩
    · intro h'; exact h'.1

theorem incremented_resolved (x : UserLoginSession) (h : x.State ≠ LoginState.Waiting) :
    (incremented x).State ≠ LoginState.Waiting := by
  intro h'
  exact h ((incremented_waiting_iff x).1 h').1

theorem check_resolved (s : Store) (token code : String) (e : Entry) (h : s token = some e)
    (hr : e.session.State ≠ LoginState.Waiting) :
    CheckUserLoginCode s token code
      = (s.set token (incremented e.session) 180, 0, some "invalid code") := by
  rw [check_present s token code e h, if_neg]
  intro hc
  exact incremented_resolved e.session hr hc.1

theorem check_store (s : Store) (token code : String) (e : Entry) (h : s token = some e) :
    (CheckUserLoginCode s token code).1 token = some ⟨afterCheck e.session code, 180⟩ := by
  rw [check_present s token code e h]
  unfold afterCheck
  split_ifs <;> exact Store.set_same s token _ 180

theorem check_result (s : Store) (token code : String) (e : Entry) (h : s token = some e) :
    (CheckUserLoginCode s token code).2
      = if (incremented e.session).State = LoginState.Waiting
            ∧ (incremented e.session).Code = code then (e.session.OtpID, none)
        else (0, some "invalid code") := by
  rw [check_present s token code e h]
  split_ifs <;> rfl

theorem afterCheck_Tries (x : UserLoginSession) (code : String) :
    (afterCheck x code).Tries = x.Tries + 1 := by
  unfold afterCheck
  split_ifs <;> rfl

theorem afterCheck_Code (x : UserLoginSession) (code : String) :
    (afterCheck x code).Code = x.Code := by
  unfold afterCheck
  split_ifs <;> rfl

theorem afterCheck_waiting (x : UserLoginSession) (code : String)
    (h : (afterCheck x code).State = LoginState.Waiting) :
    x.State = LoginState.Waiting ∧ x.Tries < 3 ∧ x.Code ≠ code := by
  by_cases hc : (incremented x).State = LoginState.Waiting ∧ (incremented x).Code = code
  · simp [afterCheck, hc] at h
  · simp only [afterCheck, if_neg hc] at h
    have hw := (incremented_waiting_iff x).1 h
    refine ⟨hw.1, hw.2, ?_⟩
    intro hcode
    exact hc ⟨h, hcode⟩

theorem afterCheck_corrupted (x : UserLoginSession) (code : String)
    (h : (afterCheck x code).Tries > 3) : (afterCheck x code).State = LoginState.Corrupted := by
  rw [afterCheck_Tries] at h
  have hi : (incremented x).State = LoginState.Corrupted := by
    simp [incremented, h]
  unfold afterCheck
  rw [if_neg]
  · exact hi
  · intro hc
    rw [hi] at hc
    cases hc.1

theorem afterCheck_wrong (x : UserLoginSession) (code : String)
    (hs : x.State = LoginState.Waiting) (ht : x.Tries < 3) (hc : x.Code ≠ code) :
    (afterCheck x code).State = LoginState.Waiting := by
  unfold afterCheck
  rw [if_neg]
  · exact (incremented_waiting_iff x).2 ⟨hs, ht⟩
  · intro h
    exact hc h.2

theorem checkCalls_length (token : String) (s : Store) (codes : List String) :
    (checkCalls token s codes).2.length = codes.length := by
  induction codes generalizing s with
  | nil => rfl
  | cons c cs ih => simp [checkCalls, ih]

theorem checkCalls_take (token : String) (s : Store) (codes : List String) (n : Nat) :
    (checkCalls token s (codes.take n)).2 = (checkCalls token s codes).2.take n := by
  induction codes generalizing s n with
  | nil => simp [checkCalls]
  | cons c cs ih =>
    cases n with
    | zero => simp [checkCalls]
    | succ n => simp [checkCalls, ih]

/-- A call that returns no error found the session waiting with budget left. -/
theorem checkCalls_success_index (token : String) (s : Store) (e : Entry) (codes : List String)
    (h : s token = some e) (i : Nat) (r : Nat × Option Error)
    (hi : (checkCalls token s codes).2[i]? = some r) (hr : r.2 = none) :
    e.session.State = LoginState.Waiting ∧ e.session.Tries + i < 3 := by
  induction codes generalizing s e i with
  | nil => simp [checkCalls] at hi
  | cons c cs ih =>
    cases i with
    | zero =>
      simp only [checkCalls, List.getElem?_cons_zero, Option.some.injEq] at hi
      rw [check_result s token c e h] at hi
      split_ifs at hi with hc
      · have := (incremented_waiting_iff e.session).1 hc.1
        exact ⟨this.1, by omega⟩
      · rw [← hi] at hr
        cases hr
    | succ i =>
      simp only [checkCalls, List.getElem?_cons_succ] at hi
      have := ih (CheckUserLoginCode s token c).1 ⟨afterCheck e.session c, 180⟩
        (check_store s token c e h) i hi
      have hw := afterCheck_waiting e.session c this.1
      have ht := afterCheck_Tries e.session c
      simp only at this
      exact ⟨hw.1, by omega⟩

/-- On an existing session a call either succeeds or returns "invalid code" with id 0. -/
theorem checkCalls_results (token : String) (s : Store) (e : Entry) (codes : List String)
    (h : s token = some e) :
    ∀ r ∈ (checkCalls token s codes).2, r.2 = none ∨ r = (0, some "invalid code") := by
  induction codes generalizing s e with
  | nil => simp [checkCalls]
  | cons c cs ih =>
    intro r hr
    simp only [checkCalls, List.mem_cons] at hr
    rcases hr with hr | hr
    · rw [hr, check_result s token c e h]
      split_ifs
      · exact Or.inl rfl
      · exact Or.inr rfl
    · exact ih _ _ (check_store s token c e h) r hr

/-- At most one call of a run succeeds, and none on a resolved session. -/
theorem checkCalls_success_count (token : String) (s : Store) (e : Entry)
    (codes : List String) (h : s token = some e) :
    ((checkCalls token s codes).2.filter (fun r => r.2.isNone)).length
      ≤ if e.session.State = LoginState.Waiting then 1 else 0 := by
  induction codes generalizing s e with
  | nil => simp [checkCalls]
  | cons c cs ih =>
    have ih' := ih (CheckUserLoginCode s token c).1 ⟨afterCheck e.session c, 180⟩
      (check_store s token c e h)
    simp only [checkCalls, List.filter_cons]
    rw [check_result s token c e h]
    by_cases hc : (incremented e.session).State = LoginState.Waiting
        ∧ (incremented e.session).Code = c
    · have hw := (incremented_waiting_iff e.session).1 hc.1
      have hs : (afterCheck e.session c).State = LoginState.Success := by
        unfold afterCheck
        rw [if_pos hc]
      simp only [hs] at ih'
      simp only [if_pos hc, Option.isNone_none, if_true, List.length_cons, hw.1]
      simp at ih' ⊢
      exact ih'
    · simp only [if_neg hc, Option.isNone_some, Bool.false_eq_true, if_false]
      by_cases hs : e.session.State = LoginState.Waiting
      · rw [if_pos hs]
        refine le_trans ih' ?_
        split_ifs <;> omega
      · rw [if_neg hs]
        have : (afterCheck e.session c).State ≠ LoginState.Waiting := by
          intro hw
          exact hs (afterCheck_waiting e.session c hw).1
        simpa [this] using ih'

/-- The tries after a run are the tries before plus the number of calls, and a count
above 3 left by a call always comes with the state `Corrupted`. -/
theorem checkCalls_final (token : String) (s : Store) (e : Entry) (codes : List String)
    (h : s token = some e) (hne : codes ≠ []) :
    ∃ e', (checkCalls token s codes).1 token = some e'
      ∧ e'.session.Tries = e.session.Tries + codes.length
      ∧ (e'.session.Tries > 3 → e'.session.State = LoginState.Corrupted) := by
  induction codes generalizing s e with
  | nil => exact absurd rfl hne
  | cons c cs ih =>
    have hst := check_store s token c e h
    cases cs with
    | nil =>
      refine ⟨⟨afterCheck e.session c, 180⟩, ?_, ?_, ?_⟩
      · simpa [checkCalls] using hst
      · simp [afterCheck_Tries]
      · exact afterCheck_corrupted e.session c
    | cons c' cs' =>
      obtain ⟨e', h1, h2, h3⟩ := ih (CheckUserLoginCode s token c).1
        ⟨afterCheck e.session c, 180⟩ hst (by simp)
      refine ⟨e', ?_, ?_, h3⟩
      · simpa [checkCalls] using h1
      · rw [h2]
        simp only [afterCheck_Tries, List.length_cons]
        omega

/-- Wrong codes within the budget are each answered "invalid code" and leave the
session waiting. -/
theorem checkCalls_wrong (token : String) (s : Store) (e : Entry) (codes : List String)
    (h : s token = some e) (hs : e.session.State = LoginState.Waiting)
    (ht : e.session.Tries + codes.length ≤ 3) (hw : ∀ c ∈ codes, c ≠ e.session.Code) :
    (∀ r ∈ (checkCalls token s codes).2, r = (0, some "invalid code"))
    ∧ storedState (checkCalls token s codes).1 token = some LoginState.Waiting
    ∧ storedTries (checkCalls token s codes).1 token
        = some (e.session.Tries + codes.length) := by
  induction codes generalizing s e with
  | nil => simp [checkCalls, storedState, storedTries, h, hs]
  | cons c cs ih =>
    have hc : e.session.Code ≠ c := fun hc => hw c (List.mem_cons_self c cs) hc.symm
    simp only [List.length_cons] at ht
    have hst := check_store s token c e h
    have hs' := afterCheck_wrong e.session c hs (by omega) hc
    have ih' := ih (CheckUserLoginCode s token c).1 ⟨afterCheck e.session c, 180⟩ hst hs'
      (by simp only [afterCheck_Tries]; omega)
      (by
        intro c' hc'
        simp only [afterCheck_Code]
        exact hw c' (List.mem_cons_of_mem c hc'))
    refine ⟨?_, ?_, ?_⟩
    · intro r hr
      simp only [checkCalls, List.mem_cons] at hr
      rcases hr with hr | hr
      · rw [hr, check_result s token c e h, if_neg]
        intro hcond
        exact hc hcond.2
      · exact ih'.1 r hr
    · simpa [checkCalls] using ih'.2.1
    · have := ih'.2.2
      simp only [afterCheck_Tries] at this
      simp only [checkCalls, List.length_cons]
      rw [this]
      congr 1
      omega

theorem op_run_tries (token : String) (s : Store) (e : Entry) (op : SessionOp)
    (h : s token = some e) :
    ∃ e', op.run token s token = some e' ∧ e'.session.Tries = e.session.Tries + 1 := by
  cases op with
  | increase =>
    refine ⟨⟨incremented e.session, 180⟩, ?_, rfl⟩
    simp only [SessionOp.run]
    rw [increase_present s token e h]
    exact Store.set_same s token _ 180
  | check code =>
    exact ⟨⟨afterCheck e.session code, 180⟩, check_store s token code e h,
      afterCheck_Tries e.session code⟩

theorem runOps_tries (token : String) (s : Store) (e : Entry) (ops : List SessionOp)
    (h : s token = some e) :
    storedTries (runOps token s ops) token = some (e.session.Tries + ops.length) := by
  induction ops generalizing s e with
  | nil => simp [runOps, storedTries, h]
  | cons op ops ih =>
    obtain ⟨e', he', ht⟩ := op_run_tries token s e op h
    have := ih (op.run token s) e' he'
    simp only [runOps, List.foldl_cons, List.length_cons] at this ⊢
    rw [this, ht]
    congr 1
    omega

theorem create_store (s : Store) (key : String) (otpID : Nat) (code : String) :
    (CreateUserLoginSession s key otpID code).1 key
      = some ⟨⟨0, otpID, code, "", LoginState.Waiting⟩, 180⟩ :=
  Store.set_same s key _ _

/-- A call scheduled alone takes its two steps to the result of `CheckUserLoginCode`. -/
theorem step_twice_eq_check (s : Store) (token code : String) :
    ((CallState.start code).step token s).2.step token ((CallState.start code).step token s).1
      = ((CheckUserLoginCode s token code).1,
          CallState.returned (CheckUserLoginCode s token code).2.1
            (CheckUserLoginCode s token code).2.2) := by
  cases h : s token with
  | none =>
    simp [CallState.step, CheckUserLoginCode, increase_absent s token h]
  | some e =>
    simp only [CallState.step, CheckUserLoginCode, increase_present s token e h]
    by_cases hs : (incremented e.session).State = LoginState.Waiting
    · by_cases hc : (incremented e.session).Code = code
      · simp [hs, hc, CallState.step]
      · simp [hs, hc, CallState.step]
    · simp [hs, CallState.step]

theorem wrapInt64_of_range (x : Int) (h0 : -9223372036854775808 ≤ x)
    (h1 : x ≤ 9223372036854775807) : wrapInt64 x = x := by
  unfold wrapInt64
  omega

theorem redisIncr_spec (s : CounterStore) (now : Nat) (key : String)
    (h : countAt s now key ≠ maxInt64) :
    ∃ exp, redisIncr s now key
        = (fun k => if k = key then some ⟨countAt s now key + 1, exp⟩ else s k,
            Except.ok (countAt s now key + 1))
      ∧ ∀ t, exp = some t → now ≤ t := by
  unfold countAt at h ⊢
  unfold redisIncr
  cases hg : s.get now key with
  | none =>
    refine ⟨none, by simp, ?_⟩
    intro t ht
    cases ht
  | some c =>
    rw [hg] at h
    simp only at h
    refine ⟨c.expireAt, by simp [h], ?_⟩
    intro t ht
    unfold CounterStore.get at hg
    cases hk : s key with
    | none => simp [hk] at hg
    | some c' =>
      simp only [hk] at hg
      cases he : c'.expireAt with
      | none =>
        simp only [he, Option.some.injEq] at hg
        rw [← hg, he] at ht
        cases ht
      | some t' =>
        simp only [he] at hg
        split_ifs at hg with hlt
        simp only [Option.some.injEq] at hg
        rw [← hg, he] at ht
        cases ht
        exact hlt

/-- One call on a counter below the 64-bit limit: the results. -/
theorem checkRateLimit_result (s : CounterStore) (now : Nat) (key : String)
    (maxRequests windowSeconds : Int) (hj0 : 0 ≤ countAt s now key)
    (hj : countAt s now key < maxInt64) (h0 : 0 ≤ maxRequests) (h1 : maxRequests ≤ maxInt64) :
    (CheckRateLimit s now key maxRequests windowSeconds).2
      = (decide (countAt s now key + 1 ≤ maxRequests),
          max 0 (maxRequests - (countAt s now key + 1)), none) := by
  obtain ⟨exp, hincr, _⟩ := redisIncr_spec s now key (ne_of_lt hj)
  unfold maxInt64 at hj h1
  simp only [CheckRateLimit, hincr]
  rw [wrapInt64_of_range (countAt s now key + 1) (by omega) (by omega),
    wrapInt64_of_range (maxRequests - (countAt s now key + 1)) (by omega) (by omega)]
  congr 2
  split_ifs with hneg
  · rw [max_eq_left (le_of_lt hneg)]
  · rw [max_eq_right (not_lt.1 hneg)]

/-- One call on a counter below the 64-bit limit: if the key is alive at a later time,
it holds the count of the call. -/
theorem checkRateLimit_next (s : CounterStore) (now : Nat) (key : String)
    (maxRequests windowSeconds : Int) (t' : Nat) (hj : countAt s now key < maxInt64)
    (hlive : ((CheckRateLimit s now key maxRequests windowSeconds).1.get t' key).isSome) :
    countAt (CheckRateLimit s now key maxRequests windowSeconds).1 t' key
      = countAt s now key + 1 := by
  obtain ⟨exp, hincr, hexp⟩ := redisIncr_spec s now key (ne_of_lt hj)
  have hget : CounterStore.get
      (fun k => if k = key then some ⟨countAt s now key + 1, exp⟩ else s k) now key
      = some ⟨countAt s now key + 1, exp⟩ := by
    cases exp with
    | none => simp [CounterStore.get]
    | some t => simp [CounterStore.get, hexp t rfl]
  have hstore : (CheckRateLimit s now key maxRequests windowSeconds).1
      = redisExpire (fun k => if k = key then some ⟨countAt s now key + 1, exp⟩ else s k)
          now key (formatSec (windowDuration windowSeconds)) := by
    simp only [CheckRateLimit, hincr]
  rw [hstore] at hlive ⊢
  unfold redisExpire at hlive ⊢
  rw [hget] at hlive ⊢
  simp only at hlive ⊢
  split_ifs at hlive ⊢ with hsec
  · simp [CounterStore.get] at hlive
  · unfold countAt
    unfold CounterStore.get at hlive ⊢
    simp only [if_true] at hlive ⊢
    split_ifs at hlive ⊢ with hlt
    · rfl
    · simp at hlive

/-- Calls in one window: call number `i` (from 0) on a counter that stood at `j` is
answered from the count `j + i + 1`. -/
theorem rateLimitCalls_get (key : String) (maxRequests windowSeconds : Int)
    (s : CounterStore) (ts : List Nat) (j : Int)
    (hnow : ∀ t ∈ ts.head?, countAt s t key = j) (hj0 : 0 ≤ j)
    (hlen : j + ts.length ≤ maxInt64) (h0 : 0 ≤ maxRequests) (h1 : maxRequests ≤ maxInt64)
    (hlive : staysLive key maxRequests windowSeconds s ts = true) (i : Nat)
    (hi : i < ts.length) :
    (rateLimitCalls key maxRequests windowSeconds s ts)[i]?
      = some (decide (j + i + 1 ≤ maxRequests), max 0 (maxRequests - (j + i + 1)), none) := by
  induction ts generalizing s j i with
  | nil => simp at hi
  | cons t ts ih =>
    have hc : countAt s t key = j := hnow t (by simp)
    simp only [List.length_cons, Nat.cast_add, Nat.cast_one] at hlen
    have hlt : countAt s t key < maxInt64 := by
      rw [hc]
      have : (0 : Int) ≤ (ts.length : Int) := Int.ofNat_nonneg _
      omega
    cases i with
    | zero =>
      simp only [rateLimitCalls, List.getElem?_cons_zero]
      rw [checkRateLimit_result s t key maxRequests windowSeconds (by rw [hc]; exact hj0)
        hlt h0 h1, hc]
      simp
    | succ i =>
      simp only [rateLimitCalls, List.getElem?_cons_succ]
      cases ts with
      | nil => simp at hi
      | cons t' ts' =>
        simp only [staysLive, Bool.and_eq_true] at hlive
        have hnext := checkRateLimit_next s t key maxRequests windowSeconds t' hlt hlive.1
        rw [hc] at hnext
        have := ih (CheckRateLimit s t key maxRequests windowSeconds).1 (j + 1)
          (by
            intro u hu
            simp only [List.head?_cons, Option.mem_def, Option.some.injEq] at hu
            rw [← hu]
            exact hnext)
          (by omega) (by omega) hlive.2 i (by simpa using hi)
        rw [this]
        simp only [Nat.cast_add, Nat.cast_one]
        have e1 : j + 1 + (i : Int) + 1 = j + ((i : Int) + 1) + 1 := by ring
        rw [e1]

theorem get_none_later (s : CounterStore) (key : String) (prev now : Nat) (h : prev ≤ now)
    (hg : s.get prev key = none) : s.get now key = none := by
  unfold CounterStore.get at hg ⊢
  cases hk : s key with
  | none => rfl
  | some c =>
    simp only [hk] at hg ⊢
    cases he : c.expireAt with
    | none => simp [he] at hg
    | some t =>
      simp only [he] at hg ⊢
      split_ifs at hg with hlt
      rw [if_neg]
      omega

/-- A key given a time to live is gone once that time has passed. -/
theorem redisExpire_dead (s : CounterStore) (key : String) (prev now : Nat) (seconds : Int)
    (h : prev ≤ now) (hs : (prev : Int) + seconds < now) :
    (redisExpire s prev key seconds).get now key = none := by
  unfold redisExpire
  cases hg : s.get prev key with
  | none => exact get_none_later s key prev now h hg
  | some c =>
    simp only
    split_ifs with hsec
    · simp [CounterStore.get]
    · simp only [CounterStore.get, if_true]
      rw [if_neg]
      omega

theorem formatSec_windowDuration_le (windowSeconds : Int) (h : 0 ≤ windowSeconds) :
    formatSec (windowDuration windowSeconds) ≤ windowSeconds := by
  unfold formatSec
  split_ifs with hsmall
  · unfold windowDuration wrapInt64 at hsmall
    omega
  · by_cases hneg : windowDuration windowSeconds < 0
    · have hpos := Int.tdiv_nonneg (a := -windowDuration windowSeconds) (b := 1000000000)
        (by omega) (by decide)
      rw [Int.neg_tdiv] at hpos
      omega
    · rw [Int.tdiv_eq_ediv (not_lt.1 hneg) (by decide)]
      unfold windowDuration wrapInt64 at hneg ⊢
      omega

/-- The keyspace left by a call holds no live counter once the window has passed. -/
theorem checkRateLimit_dead (s : CounterStore) (key : String) (maxRequests windowSeconds : Int)
    (prev now : Nat) (hw : 0 ≤ windowSeconds) (h : (prev : Int) + windowSeconds < now) :
    (CheckRateLimit s prev key maxRequests windowSeconds).1.get now key = none := by
  have hstore : (CheckRateLimit s prev key maxRequests windowSeconds).1
      = redisExpire (redisIncr s prev key).1 prev key
          (formatSec (windowDuration windowSeconds)) := by
    cases hr : (redisIncr s prev key).2 <;> simp [CheckRateLimit, hr]
  rw [hstore]
  have hle := formatSec_windowDuration_le windowSeconds hw
  have hp : prev ≤ now := by omega
  have hs : (prev : Int) + formatSec (windowDuration windowSeconds) < now := by omega
  exact redisExpire_dead _ key prev now _ hp hs

/-- A window of 1 to 9223372036 seconds is sent to `EXPIRE` as it is. -/
theorem formatSec_windowDuration_eq (windowSeconds : Int) (h1 : 1 ≤ windowSeconds)
    (h2 : windowSeconds ≤ 9223372036) :
    formatSec (windowDuration windowSeconds) = windowSeconds := by
  have hd : windowDuration windowSeconds = windowSeconds * 1000000000 := by
    unfold windowDuration
    exact wrapInt64_of_range _ (by omega) (by omega)
  rw [hd]
  unfold formatSec
  rw [if_neg (by omega),
    Int.tdiv_eq_ediv (show (0 : Int) ≤ windowSeconds * 1000000000 by omega) (by decide)]
  omega

/-- After `INCR` the key is alive. -/
theorem redisIncr_live (s : CounterStore) (now : Nat) (key : String) :
    ∃ c, (redisIncr s now key).1.get now key = some c := by
  unfold redisIncr
  cases hg : s.get now key with
  | none => exact ⟨⟨1, none⟩, by simp [CounterStore.get]⟩
  | some c =>
    by_cases hc : c.count = maxInt64
    · exact ⟨c, by simp [hc, hg]⟩
    · refine ⟨⟨c.count + 1, c.expireAt⟩, ?_⟩
      simp only [if_neg hc]
      unfold CounterStore.get at hg ⊢
      simp only [if_true]
      cases hk : s key with
      | none => simp [hk] at hg
      | some c' =>
        simp only [hk] at hg
        cases he : c'.expireAt with
        | none =>
          simp only [he, Option.some.injEq] at hg
          rw [← hg, he]
        | some t' =>
          simp only [he] at hg
          by_cases hle : now ≤ t'
          · rw [if_pos hle, Option.some.injEq] at hg
            rw [← hg, he]
            simp [hle]
          · rw [if_neg hle] at hg
            cases hg

/-- A call with a window of 1 to 9223372036 seconds leaves the counter with the expiry
time `prev + windowSeconds`. -/
theorem checkRateLimit_expiry (s : CounterStore) (key : String) (maxRequests windowSeconds : Int)
    (prev : Nat) (h1 : 1 ≤ windowSeconds) (h2 : windowSeconds ≤ 9223372036) :
    ∃ c, (CheckRateLimit s prev key maxRequests windowSeconds).1 key
      = some ⟨c, some (prev + windowSeconds.toNat)⟩ := by
  have hstore : (CheckRateLimit s prev key maxRequests windowSeconds).1
      = redisExpire (redisIncr s prev key).1 prev key
          (formatSec (windowDuration windowSeconds)) := by
    cases hr : (redisIncr s prev key).2 <;> simp [CheckRateLimit, hr]
  obtain ⟨c, hc⟩ := redisIncr_live s prev key
  rw [hstore, formatSec_windowDuration_eq windowSeconds h1 h2]
  unfold redisExpire
  rw [hc]
  simp only
  rw [if_neg (by omega)]
  exact ⟨c.count, by simp⟩

/-- The liveness of a counter with an expiry time. -/
theorem get_isSome_of_expiry (s : CounterStore) (key : String) (c : Int) (e t : Nat)
    (h : s key = some ⟨c, some e⟩) : ((s.get t key).isSome ↔ t ≤ e) := by
  unfold CounterStore.get
  rw [h]
  simp only
  by_cases hle : t ≤ e
  · simp [hle]
  · simp [hle]

theorem serve_cons (rw : responseWriter) (call : WriterCall) (calls : List WriterCall) :
    rw.serve (call :: calls)
      = (match call with
          | WriterCall.WriteHeader code => rw.WriteHeader code
          | WriterCall.Write => rw.Write).serve calls := rfl

theorem serve_keeps_header (calls : List WriterCall) (rw : responseWriter)
    (h : rw.ResponseWriter.wroteHeader ≠ none) :
    (rw.serve calls).ResponseWriter = rw.ResponseWriter := by
  induction calls generalizing rw with
  | nil => rfl
  | cons call calls ih =>
    obtain ⟨c, hc⟩ := Option.ne_none_iff_exists'.1 h
    rw [serve_cons]
    cases call with
    | WriteHeader code =>
      have hstep : (rw.WriteHeader code).ResponseWriter = rw.ResponseWriter := by
        simp [responseWriter.WriteHeader, ResponseWriter.WriteHeader, hc]
      rw [ih _ (by rw [hstep]; exact h), hstep]
    | Write =>
      have hstep : rw.Write.ResponseWriter = rw.ResponseWriter := by
        simp [responseWriter.Write, ResponseWriter.Write, hc]
      rw [ih _ (by rw [hstep]; exact h), hstep]

/-- After at least one call of the handler the header is written. -/
theorem serve_wrote_header (calls : List WriterCall) (rw : responseWriter)
    (h : calls ≠ []) : (rw.serve calls).ResponseWriter.wroteHeader ≠ none := by
  cases calls with
  | nil => exact absurd rfl h
  | cons call calls =>
    rw [serve_cons]
    cases call with
    | WriteHeader code =>
      have hw : (rw.WriteHeader code).ResponseWriter.wroteHeader ≠ none := by
        simp only [responseWriter.WriteHeader, ResponseWriter.WriteHeader]
        cases hc : rw.ResponseWriter.wroteHeader <;> simp [hc]
      rw [serve_keeps_header calls _ hw]
      exact hw
    | Write =>
      have hw : rw.Write.ResponseWriter.wroteHeader ≠ none := by
        simp only [responseWriter.Write, ResponseWriter.Write]
        cases hc : rw.ResponseWriter.wroteHeader <;> simp [hc]
      rw [serve_keeps_header calls _ hw]
      exact hw

theorem httpError_after_header (w : ResponseWriter) (code : Int)
    (h : w.wroteHeader ≠ none) : httpError w code = w := by
  obtain ⟨c, hc⟩ := Option.ne_none_iff_exists'.1 h
  simp [httpError, ResponseWriter.WriteHeader, ResponseWriter.Write, hc]

theorem hasPrefix_append (pre t : String) : HasPrefix (pre ++ t) pre = true := by
  unfold HasPrefix
  rw [String.data_append, List.isPrefixOf_iff_prefix]
  exact List.prefix_append _ _

theorem trimPrefix_append (pre t : String) : TrimPrefix (pre ++ t) pre = t := by
  unfold TrimPrefix
  rw [if_pos (hasPrefix_append pre t), String.data_append, List.drop_left]

theorem bearer_append_ne_empty (t : String) : "Bearer " ++ t ≠ "" := by
  intro h
  have := congrArg String.data h
  rw [String.data_append] at this
  simp at this

/-- A request that carries `Bearer` and a token is answered by the token parser. -/
theorem parseToken_bearer (lib : JwtLib) (appSettings : Config) (now : Int) (r : Request)
    (tok : String) (hhdr : r.HeaderGet "Authorization" = "Bearer " ++ tok) :
    JWTService.ParseToken lib appSettings now r
      = match ParseWithClaims lib appSettings.secretKey now tok with
        | Except.error err => Outcome.error ("invalid token: " ++ err)
        | Except.ok claims => Outcome.ok claims := by
  simp only [JWTService.ParseToken, ParseTokenFromHeader, hhdr]
  rw [if_neg (bearer_append_ne_empty tok), hasPrefix_append, trimPrefix_append]
  simp

/-- Parsing a token the library reads back: the claims before `exp`, an error from `exp` on. -/
theorem parseWithClaims_read_back (lib : JwtLib) (key : String) (now : Int) (tok : String)
    (claims : Claims) (exp : Int) (hexp : claims.ExpiresAt = some exp)
    (hrt : lib.decode tok = some (claims, lib.sign key claims)) :
    ParseWithClaims lib key now tok
      = if now < exp * 1000000000 then Except.ok claims
        else Except.error "token has invalid claims: token is expired" := by
  simp [ParseWithClaims, hrt, hexp]

theorem newClaims_ExpiresAt (appSettings : Config) (now : Int) (id : Nat) (aud : Audiance) :
    (newClaims appSettings now id aud).ExpiresAt
      = some (NewNumericDate
          (now + wrapInt64 (wrapInt64 appSettings.accessTokenExpire * 60000000000))) := rfl

/-- Parsing the request that carries a generated token. -/
theorem parseToken_generated (lib : JwtLib) (appSettings : Config) (t0 now : Int) (id : Nat)
    (aud : Audiance) (r : Request)
    (hrt : lib.decode (GenerateToken lib appSettings t0 id aud).1
      = some (newClaims appSettings t0 id aud,
          lib.sign appSettings.secretKey (newClaims appSettings t0 id aud)))
    (hhdr : r.HeaderGet "Authorization"
      = "Bearer " ++ (GenerateToken lib appSettings t0 id aud).1) :
    JWTService.ParseToken lib appSettings now r
      = if now < NewNumericDate
            (t0 + wrapInt64 (wrapInt64 appSettings.accessTokenExpire * 60000000000))
            * 1000000000
        then Outcome.ok (newClaims appSettings t0 id aud)
        else Outcome.error "invalid token: token has invalid claims: token is expired" := by
  rw [parseToken_bearer lib appSettings now r _ hhdr,
    parseWithClaims_read_back lib appSettings.secretKey now _ _ _
      (newClaims_ExpiresAt appSettings t0 id aud) hrt]
  split_ifs <;> rfl

theorem admin_answer_of_claims (lib : JwtLib) (appSettings : Config) (admins : List Admin)
    (now : Int) (r : Request) (claims : Claims)
    (hparse : JWTService.ParseToken lib appSettings now r = Outcome.ok claims)
    (haud : claims.Audience ≠ AudianceAdmin) :
    AdminAuthenticator.Authenticate lib appSettings admins now r = Answer.respond 401 := by
  simp [AdminAuthenticator.Authenticate, hparse, haud]

theorem user_answer_of_claims (lib : JwtLib) (appSettings : Config) (users : List User)
    (now : Int) (r : Request) (claims : Claims)
    (hparse : JWTService.ParseToken lib appSettings now r = Outcome.ok claims)
    (haud : claims.Audience ≠ AudianceUser) :
    Authenticator.Authenticate lib appSettings users now r = Answer.respond 401 := by
  simp [Authenticator.Authenticate, hparse, haud]

theorem admin_answer_of_error (lib : JwtLib) (appSettings : Config) (admins : List Admin)
    (now : Int) (r : Request) (err : Error)
    (hparse : JWTService.ParseToken lib appSettings now r = Outcome.error err) :
    AdminAuthenticator.Authenticate lib appSettings admins now r = Answer.respond 401 := by
  simp [AdminAuthenticator.Authenticate, hparse]

theorem user_answer_of_error (lib : JwtLib) (appSettings : Config) (users : List User)
    (now : Int) (r : Request) (err : Error)
    (hparse : JWTService.ParseToken lib appSettings now r = Outcome.error err) :
    Authenticator.Authenticate lib appSettings users now r = Answer.respond 401 := by
  simp [Authenticator.Authenticate, hparse]

/-- The admin middleware on a parsed admin token with an issue time and a row found. -/
theorem admin_answer_of_stale (lib : JwtLib) (appSettings : Config) (admins : List Admin)
    (now : Int) (r : Request) (claims : Claims) (admin : Admin) (iat : Int)
    (hparse : JWTService.ParseToken lib appSettings now r = Outcome.ok claims)
    (haud : claims.Audience = AudianceAdmin)
    (hfind : gormAdmin.GetByID admins claims.ID = (some admin, none))
    (hiat : claims.IssuedAt = some iat)
    (hstale : iat * 1000000000 < admin.CreatedAt
      ∨ ∃ resetAt, admin.PasswordResetAt = some resetAt ∧ iat * 1000000000 < resetAt) :
    AdminAuthenticator.Authenticate lib appSettings admins now r = Answer.respond 401 := by
  simp only [AdminAuthenticator.Authenticate, hparse, haud, hfind, hiat]
  by_cases hc : iat * 1000000000 < admin.CreatedAt
  · simp [hc]
  · rcases hstale with h | ⟨resetAt, hr, hlt⟩
    · exact absurd h hc
    · simp [hc, hr, hlt]

theorem update_reset (admin : Admin) (now : Int) (username : Option String)
    (role : Option Int) (h : String) :
    (gormAdmin.Update admin now username role (some h)).PasswordResetAt = some now := by
  cases username <;> cases role <;> rfl

theorem create_shape (table : List UserOtp) (user : User) (now : Int) (code : String) :
    gormOtp.Create table user now code
      = match table.find? (recentUnused user.ID now) with
        | some _ => (table, none, some "user has generated OTP within the last 2 minutes")
        | none =>
          if ((table.filter (fun o => decide (o.UserID = user.ID)
              && decide (o.CreatedAt > now - 10 * 60000000000))).length : Int) ≥ 3 then
            (table, none, some "user has exceeded maximum OTP limit (5) within the last hour")
          else
            (table ++ [⟨table.length + 1, now, code, user.ID, none⟩],
              some ⟨table.length + 1, now, code, user.ID, none⟩, none) := rfl

theorem createOTP_shape (table : List UserOtp) (user : User) (now : Int) (code : String) :
    CreateOTP table user now code
      = match table.find? (recentUnused user.ID now) with
        | some _ => (table, none, some "user has generated OTP within the last 2 minutes")
        | none =>
          if ((table.filter (fun o => decide (o.UserID = user.ID)
              && decide (o.CreatedAt > now - 1 * 3600000000000))).length : Int) ≥ 5 then
            (table, none, some "user has exceeded maximum OTP limit (5) within the last hour")
          else
            (table ++ [⟨table.length + 1, now, code, user.ID, none⟩],
              some ⟨table.length + 1, now, code, user.ID, none⟩, none) := rfl

theorem no_recent_find (table : List UserOtp) (user : User) (now : Int)
    (hcool : ∀ o ∈ table,
      ¬(o.UserID = user.ID ∧ o.UsedAt = none ∧ now - 2 * 60000000000 < o.CreatedAt)) :
    table.find? (recentUnused user.ID now) = none := by
  rw [List.find?_eq_none]
  intro o ho hp
  simp only [recentUnused, Bool.and_eq_true, decide_eq_true_eq] at hp
  exact hcool o ho ⟨hp.1.1, hp.2, hp.1.2⟩

theorem create_of_no_recent (table : List UserOtp) (user : User) (now : Int) (code : String)
    (hf : table.find? (recentUnused user.ID now) = none) :
    gormOtp.Create table user now code
      = if 3 ≤ challengesSince user.ID (now - 10 * 60000000000) table then
          (table, none, some "user has exceeded maximum OTP limit (5) within the last hour")
        else
          (table ++ [⟨table.length + 1, now, code, user.ID, none⟩],
            some ⟨table.length + 1, now, code, user.ID, none⟩, none) := by
  rw [create_shape, hf]
  simp only [challengesSince, ge_iff_le]
  by_cases h : 3 ≤ (table.filter (fun o => decide (o.UserID = user.ID)
      && decide (o.CreatedAt > now - 10 * 60000000000))).length
  · rw [if_pos h, if_pos (by exact_mod_cast h)]
  · rw [if_neg h, if_neg (by exact_mod_cast h)]

theorem createOTP_of_no_recent (table : List UserOtp) (user : User) (now : Int)
    (code : String) (hf : table.find? (recentUnused user.ID now) = none) :
    CreateOTP table user now code
      = if 5 ≤ challengesSince user.ID (now - 1 * 3600000000000) table then
          (table, none, some "user has exceeded maximum OTP limit (5) within the last hour")
        else
          (table ++ [⟨table.length + 1, now, code, user.ID, none⟩],
            some ⟨table.length + 1, now, code, user.ID, none⟩, none) := by
  rw [createOTP_shape, hf]
  simp only [challengesSince, ge_iff_le]
  by_cases h : 5 ≤ (table.filter (fun o => decide (o.UserID = user.ID)
      && decide (o.CreatedAt > now - 1 * 3600000000000))).length
  · rw [if_pos h, if_pos (by exact_mod_cast h)]
  · rw [if_neg h, if_neg (by exact_mod_cast h)]

/-- The invariant survives the passing of time. -/
theorem cooldownInvariant_later (table : List UserOtp) (t later : Int) (h : t ≤ later)
    (hinv : cooldownInvariant table t) : cooldownInvariant table later := by
  intro u
  refine le_trans (List.Sublist.length_le (List.monotone_filter_right table ?_)) (hinv u)
  intro o ho
  simp only [recentUnused, Bool.and_eq_true, decide_eq_true_eq] at ho ⊢
  exact ⟨⟨ho.1.1, by omega⟩, ho.2⟩

/-- The table after a call is the table before, or the table before with one row of
the user appended when the user had no recent unused row. -/
theorem create_table_cases (table : List UserOtp) (user : User) (now : Int) (code : String) :
    (gormOtp.Create table user now code).1 = table
    ∨ (table.find? (recentUnused user.ID now) = none
        ∧ (gormOtp.Create table user now code).1
          = table ++ [⟨table.length + 1, now, code, user.ID, none⟩]) := by
  cases hf : table.find? (recentUnused user.ID now) with
  | some found =>
    left
    rw [create_shape, hf]
  | none =>
    rw [create_of_no_recent table user now code hf]
    split_ifs
    · exact Or.inl rfl
    · exact Or.inr ⟨rfl, rfl⟩

theorem cooldownInvariant_append (table : List UserOtp) (userID : Nat) (now : Int)
    (row : UserOtp) (hrow : row.UserID = userID)
    (hf : table.find? (recentUnused userID now) = none)
    (hinv : cooldownInvariant table now) : cooldownInvariant (table ++ [row]) now := by
  intro u
  rw [List.filter_append]
  by_cases hu : u = userID
  · subst hu
    have hnone : table.filter (recentUnused u now) = [] := by
      rw [List.filter_eq_nil_iff]
      exact List.find?_eq_none.1 hf
    rw [hnone, List.nil_append]
    by_cases hp : recentUnused u now row = true
    · simp [List.filter, hp]
    · simp [List.filter, hp]
  · have hp : recentUnused u now row = false := by
      simp only [recentUnused, hrow]
      simp [Ne.symm hu]
    simp only [List.filter, hp, List.append_nil]
    exact hinv u

theorem alphabet_index :
    ∀ n : Fin 36, ∃ c, "ABCDEFGHIJKLMNOPQRSTUVWXYZ0123456789".data[n.val]? = some c
      ∧ isCodeChar c = true ∧ c.utf8Size = 1 := by
  decide

theorem alphabet_len : len "ABCDEFGHIJKLMNOPQRSTUVWXYZ0123456789" = 36 := by
  decide

/-- The loop never panics: every index is below the length of the alphabet. -/
theorem generateLoop_ok (draw : Nat → Nat) (positions : List Nat) :
    ∃ cs, generateLoop "ABCDEFGHIJKLMNOPQRSTUVWXYZ0123456789" draw positions = Outcome.ok cs
      ∧ cs.length = positions.length
      ∧ ∀ c ∈ cs, isCodeChar c = true ∧ c.utf8Size = 1 := by
  induction positions with
  | nil => exact ⟨[], rfl, rfl, by simp⟩
  | cons i rest ih =>
    obtain ⟨cs, hcs, hlen, hall⟩ := ih
    have hlt : randInt (draw i) (len "ABCDEFGHIJKLMNOPQRSTUVWXYZ0123456789") < 36 := by
      rw [alphabet_len]
      exact Nat.mod_lt _ (by decide)
    obtain ⟨c, hc, hcode, hsize⟩ := alphabet_index ⟨_, hlt⟩
    refine ⟨c :: cs, ?_, by simp [hlen], ?_⟩
    · simp only [generateLoop]
      simp only at hc
      rw [hc, hcs]
    · intro c' hc'
      rcases List.mem_cons.1 hc' with h | h
      · rw [h]
        exact ⟨hcode, hsize⟩
      · exact hall c' h

theorem utf8ByteSize_ascii (cs : List Char) (h : ∀ c ∈ cs, c.utf8Size = 1) :
    (String.mk cs).utf8ByteSize = cs.length := by
  induction cs with
  | nil => rfl
  | cons c cs ih =>
    have hc := h c (List.mem_cons_self c cs)
    have ih' := ih (fun c' hc' => h c' (List.mem_cons_of_mem c hc'))
    simp only [String.utf8ByteSize, String.utf8ByteSize.go, List.length_cons] at ih' ⊢
    rw [ih', hc]

/-- A string of six ASCII characters of the alphabet is a code that passes validation. -/
theorem six_code_chars (cs : List Char) (hlen : cs.length = 6)
    (hall : ∀ c ∈ cs, isCodeChar c = true ∧ c.utf8Size = 1) :
    (String.mk cs).length = 6 ∧ (∀ c ∈ (String.mk cs).data, isCodeChar c = true)
      ∧ isOtpCode (String.mk cs) = true
      ∧ VerifyOTPRequest.validate (String.mk cs) = none := by
  have hsize := utf8ByteSize_ascii cs (fun c hc => (hall c hc).2)
  refine ⟨hlen, fun c hc => (hall c hc).1, ?_, ?_⟩
  · simp only [isOtpCode, String.length, hlen, String.toList, beq_self_eq_true, Bool.true_and,
      List.all_eq_true]
    exact fun c hc => (hall c hc).1
  · simp [VerifyOTPRequest.validate, len, hsize, hlen]

/-- The errors of `CheckUserLoginCode`. -/
theorem check_error_kinds (s : Store) (token code : String) (err : Error)
    (h : (CheckUserLoginCode s token code).2.2 = some err) :
    err = "invalid code" ∨ err = "redis: nil" := by
  cases hs : s token with
  | none =>
    rw [check_absent s token code hs] at h
    simp only [Option.some.injEq] at h
    exact Or.inr h.symm
  | some e =>
    rw [check_present s token code e hs] at h
    by_cases hc : (incremented e.session).State = LoginState.Waiting
        ∧ (incremented e.session).Code = code
    · rw [if_pos hc] at h
      cases h
    · rw [if_neg hc] at h
      exact Or.inl (Option.some.inj h).symm

/-- The handler on a request with a bearer header and a code of six bytes. -/
theorem verifyOTP_shape (lib : JwtLib) (appSettings : Config) (now : Int) (s : Store)
    (consume : Nat → Except Error User) (r : Request) (token code : String)
    (hhdr : r.HeaderGet "Authorization" = "Bearer " ++ token) (hlen : len code = 6) :
    UserHandler.verifyOTP lib appSettings now s consume r (some code)
      = match (UserServiceImpl.VerifyOTP s consume token code).2.2,
          (UserServiceImpl.VerifyOTP s consume token code).2.1 with
        | some err, _ =>
          if err = ErrUserDisabled then ((UserServiceImpl.VerifyOTP s consume token code).1, 403)
          else ((UserServiceImpl.VerifyOTP s consume token code).1, 500)
        | none, none => ((UserServiceImpl.VerifyOTP s consume token code).1, 500)
        | none, some user =>
          match (GenerateToken lib appSettings now user.ID AudianceUser).2 with
          | some _ => ((UserServiceImpl.VerifyOTP s consume token code).1, 500)
          | none => ((UserServiceImpl.VerifyOTP s consume token code).1, 200) := by
  have hcond : ¬(r.HeaderGet "Authorization" = ""
      ∨ ¬HasPrefix (r.HeaderGet "Authorization") "Bearer " = true) := by
    rw [hhdr]
    intro h
    rcases h with h | h
    · exact bearer_append_ne_empty token h
    · exact h (hasPrefix_append "Bearer " token)
  have hval : VerifyOTPRequest.validate code = none := by
    simp [VerifyOTPRequest.validate, hlen]
  simp only [UserHandler.verifyOTP, if_neg hcond, hval]
  rw [hhdr, trimPrefix_append]

theorem checkRateLimit_remaining_nonneg (s : CounterStore) (now : Nat) (key : String)
    (maxRequests windowSeconds : Int) :
    0 ≤ (CheckRateLimit s now key maxRequests windowSeconds).2.2.1 := by
  cases hres : (redisIncr s now key).2 with
  | error err => simp [CheckRateLimit, hres]
  | ok count =>
    simp only [CheckRateLimit, hres]
    split_ifs with h
    · exact le_refl 0
    · exact not_lt.1 h

theorem matchUpTo_end (cls : Char → Bool) (n : Nat) (cs : List Char) :
    matchUpTo cls List.isEmpty n cs = (cs.all cls && decide (cs.length ≤ n)) := by
  induction n generalizing cs with
  | zero => cases cs <;> simp [matchUpTo]
  | succ n ih =>
    cases cs with
    | nil => simp [matchUpTo]
    | cons c rest =>
      simp only [matchUpTo, List.isEmpty_cons, Bool.false_or, ih, List.all_cons,
        List.length_cons, Nat.add_le_add_iff_right, Bool.and_assoc]

theorem matchExactly_then (cls : Char → Bool) (m n : Nat) (cs : List Char) :
    matchExactly cls (fun cs => cs.all cls && decide (cs.length ≤ m)) n cs
      = (cs.all cls && decide (n ≤ cs.length) && decide (cs.length ≤ n + m)) := by
  induction n generalizing cs with
  | zero => simp [matchExactly]
  | succ n ih =>
    cases cs with
    | nil => simp [matchExactly]
    | cons c rest =>
      simp only [matchExactly, ih, List.all_cons, List.length_cons, Nat.add_le_add_iff_right,
        Bool.and_assoc]
      congr 3
      have : rest.length + 1 ≤ n + 1 + m ↔ rest.length ≤ n + m := by omega
      simp [this]

/-- The digits item of the phone expression, followed by the end of the text. -/
theorem phone_digits_item (cs : List Char) :
    matchItems [⟨fun c => decide ('0' ≤ c) && decide (c ≤ '9'), 6, 14⟩] cs
      = (cs.all isAsciiDigit && decide (6 ≤ cs.length) && decide (cs.length ≤ 14)) := by
  have hk : matchUpTo (fun c => decide ('0' ≤ c) && decide (c ≤ '9')) (matchItems []) (14 - 6)
      = fun cs => cs.all (fun c => decide ('0' ≤ c) && decide (c ≤ '9'))
          && decide (cs.length ≤ 8) := by
    funext cs
    exact matchUpTo_end _ 8 cs
  show matchExactly _ (matchUpTo _ (matchItems []) (14 - 6)) 6 cs = _
  rw [hk, matchExactly_then]
  rfl

theorem phone_match_nil : matchItems phoneRegex [] = false := rfl

theorem phone_match_one (c : Char) : matchItems phoneRegex [c] = false := by
  show ((c == '+') && false) = false
  simp

theorem phone_match_cons (c d : Char) (rest : List Char) :
    matchItems phoneRegex (c :: d :: rest)
      = ((c == '+') && ((decide ('1' ≤ d) && decide (d ≤ '9'))
          && (rest.all isAsciiDigit && decide (6 ≤ rest.length)
            && decide (rest.length ≤ 14)))) := by
  rw [← phone_digits_item rest]
  rfl

theorem validatePhoneNumber_eq (s : String) :
    RequestOTPRequest.validatePhoneNumber s = isInternationalNumber s := by
  unfold RequestOTPRequest.validatePhoneNumber isInternationalNumber
  split
  · next d rest h =>
    rw [h, phone_match_cons]
    simp [Bool.and_assoc]
  · next hno =>
    cases hs : s.data with
    | nil => exact phone_match_nil
    | cons c tail =>
      cases tail with
      | nil => exact phone_match_one c
      | cons d rest =>
        rw [phone_match_cons]
        have hc : c ≠ '+' := by
          intro hc
          exact hno d rest (by rw [hs, hc])
        simp [hc]

theorem mapIndex_sortBy (s : String) :
    mapIndex [("id", true), ("phone_number", true), ("first_name", true), ("last_name", true),
        ("status", true)] s = true
      ↔ s = "id" ∨ s = "phone_number" ∨ s = "first_name" ∨ s = "last_name" ∨ s = "status" := by
  simp only [mapIndex, List.lookup]
  by_cases h1 : s = "id"
  · simp [h1]
  · by_cases h2 : s = "phone_number"
    · simp [h2]
    · by_cases h3 : s = "first_name"
      · simp [h3]
      · by_cases h4 : s = "last_name"
        · simp [h4]
        · by_cases h5 : s = "status"
          · simp [h5]
          · simp [h1, h2, h3, h4, h5, beq_eq_false_iff_ne.2 h1, beq_eq_false_iff_ne.2 h2,
              beq_eq_false_iff_ne.2 h3, beq_eq_false_iff_ne.2 h4, beq_eq_false_iff_ne.2 h5]

theorem mapIndex_sortOrder (s : String) :
    mapIndex [("asc", true), ("desc", true)] s = true ↔ s = "asc" ∨ s = "desc" := by
  simp only [mapIndex, List.lookup]
  by_cases h1 : s = "asc"
  · simp [h1]
  · by_cases h2 : s = "desc"
    · simp [h2]
    · simp [h1, h2, beq_eq_false_iff_ne.2 h1, beq_eq_false_iff_ne.2 h2]

/-- The result of `SetDefaults`, field by field. -/
theorem setDefaults_eq (p : UserSearchParams) :
    p.SetDefaults
      = { ID := p.ID, PhoneNumber := p.PhoneNumber, FirstName := p.FirstName,
          LastName := p.LastName, Status := p.Status,
          Limit := if p.Limit ≤ 0 ∨ p.Limit > 100 then 10 else p.Limit,
          Offset := if p.Offset < 0 then 0 else p.Offset,
          SortBy := if mapIndex [("id", true), ("phone_number", true), ("first_name", true),
              ("last_name", true), ("status", true)] p.SortBy = true then p.SortBy else "id",
          SortOrder := if mapIndex [("asc", true), ("desc", true)] p.SortOrder = true
            then p.SortOrder else "asc" } := by
  by_cases h1 : p.Limit ≤ 0 ∨ p.Limit > 100 <;>
  by_cases h2 : p.Offset < 0 <;>
  by_cases h3 : mapIndex [("id", true), ("phone_number", true), ("first_name", true),
      ("last_name", true), ("status", true)] p.SortBy = true <;>
  by_cases h4 : mapIndex [("asc", true), ("desc", true)] p.SortOrder = true <;>
  simp [UserSearchParams.SetDefaults, h1, h2, h3, h4]

theorem setDefaults_fixed (q : UserSearchParams) (hl : 1 ≤ q.Limit) (hu : q.Limit ≤ 100)
    (ho : 0 ≤ q.Offset)
    (hb : mapIndex [("id", true), ("phone_number", true), ("first_name", true),
      ("last_name", true), ("status", true)] q.SortBy = true)
    (hs : mapIndex [("asc", true), ("desc", true)] q.SortOrder = true) :
    q.SetDefaults = q := by
  rw [setDefaults_eq, if_neg (by omega), if_neg (by omega), if_pos hb, if_pos hs]

/-! ## The session state machine -/

/-- C1: for a store in which the numbers of the session under the token, if there is
one, are carried unchanged by the JSON codecs (tries + 1 and otp id below
`jsonExactBound`), `CheckUserLoginCode` returns a nil error exactly when the session
exists, its state before the call is `Waiting`, its tries before the call are below 3
and the submitted code equals the stored code; it then returns the stored otp id and
the stored state afterwards is `Success`.  In every other case the error is non-nil,
the returned id is 0 and the store is the one the increment step left. -/
theorem checkUserLoginCode_succeeds_iff (s : Store) (token code : String)
    (_hnum : ∀ e, s token = some e →
      e.session.Tries + 1 < jsonExactBound ∧ e.session.OtpID < jsonExactBound) :
    ((CheckUserLoginCode s token code).2.2 = none ↔
        ∃ e, s token = some e ∧ e.session.State = LoginState.Waiting ∧ e.session.Tries < 3
          ∧ e.session.Code = code)
    ∧ (∀ e, s token = some e → e.session.State = LoginState.Waiting → e.session.Tries < 3 →
          e.session.Code = code →
          (CheckUserLoginCode s token code).2 = (e.session.OtpID, none)
          ∧ (CheckUserLoginCode s token code).1 token
              = some ⟨{ e.session with Tries := e.session.Tries + 1,
                                       State := LoginState.Success }, 180⟩)
    ∧ ((CheckUserLoginCode s token code).2.2 ≠ none →
          (CheckUserLoginCode s token code).2.1 = 0
          ∧ (CheckUserLoginCode s token code).1 = (IncreaseUserLoginTries s token).1) := by
  cases h : s token with
  | none =>
    rw [check_absent s token code h, increase_absent s token h]
    simp
  | some e =>
    rw [check_present s token code e h, increase_present s token e h]
    by_cases hc : (incremented e.session).State = LoginState.Waiting
        ∧ (incremented e.session).Code = code
    · have hw := (incremented_waiting_iff e.session).1 hc.1
      rw [if_pos hc]
      refine ⟨?_, ?_, ?_⟩
      · simp only [true_iff]
        exact ⟨e, rfl, hw.1, hw.2, hc.2⟩
      · intro e' he' _ _ _
        cases he'
        exact ⟨rfl, Store.set_same s token _ 180⟩
      · intro hne
        exact absurd rfl hne
    · rw [if_neg hc]
      refine ⟨?_, ?_, ?_⟩
      · constructor
        · intro hn
          cases hn
        · rintro ⟨e', he', hs, ht, hcode⟩
          cases he'
          exact absurd ⟨(incremented_waiting_iff _).2 ⟨hs, ht⟩, hcode⟩ hc
      · intro e' he' hs ht hcode
        cases he'
        exact absurd ⟨(incremented_waiting_iff _).2 ⟨hs, ht⟩, hcode⟩ hc
      · intro _
        exact ⟨rfl, rfl⟩

/-- C1 witness: on a waiting session with one earlier try and otp id 7, the stored code
is answered with the otp id and a nil error, and a wrong code with an error. -/
theorem checkUserLoginCode_succeeds_iff_witness :
    (CheckUserLoginCode (waitingSession 1) "k" "ABC123").2 = (7, none)
    ∧ ¬ (CheckUserLoginCode (waitingSession 1) "k" "XXXXXX").2.2 = none :=
  ⟨((checkUserLoginCode_succeeds_iff (waitingSession 1) "k" "ABC123"
      (fun e he => by
        have hk : waitingSession 1 "k"
            = some ⟨⟨1, 7, "ABC123", "", LoginState.Waiting⟩, 180⟩ := by decide
        rw [hk] at he
        cases he
        decide)).2.1
      ⟨⟨1, 7, "ABC123", "", LoginState.Waiting⟩, 180⟩ (by decide) rfl (by decide) rfl).1,
   fun hnone => by
    obtain ⟨e, he, _, _, hcode⟩ :=
      (checkUserLoginCode_succeeds_iff (waitingSession 1) "k" "XXXXXX"
        (fun e he => by
          have hk : waitingSession 1 "k"
              = some ⟨⟨1, 7, "ABC123", "", LoginState.Waiting⟩, 180⟩ := by decide
          rw [hk] at he
          cases he
          decide)).1.1 hnone
    have hk : waitingSession 1 "k"
        = some ⟨⟨1, 7, "ABC123", "", LoginState.Waiting⟩, 180⟩ := by decide
    rw [hk] at he
    cases he
    exact absurd hcode (by decide)⟩

/-- Calls on a resolved session: each is answered "invalid code" and the state stays
resolved. -/
theorem checkCalls_resolved (s : Store) (token : String) (e : Entry)
    (codes : List String) (h : s token = some e)
    (hr : e.session.State = LoginState.Success ∨ e.session.State = LoginState.Corrupted) :
    (∀ r ∈ (checkCalls token s codes).2, r = (0, some "invalid code"))
    ∧ (storedState (checkCalls token s codes).1 token = some LoginState.Success
        ∨ storedState (checkCalls token s codes).1 token = some LoginState.Corrupted) := by
  induction codes generalizing s e with
  | nil =>
    refine ⟨by simp [checkCalls], ?_⟩
    simpa [checkCalls, storedState, h] using hr
  | cons c cs ih =>
    have hne : e.session.State ≠ LoginState.Waiting := by
      rcases hr with hr | hr <;> rw [hr] <;> decide
    have hstep := check_resolved s token c e h hne
    have hnext : (CheckUserLoginCode s token c).1 token
        = some ⟨incremented e.session, 180⟩ := by
      rw [hstep]
      exact Store.set_same s token _ _
    have hr' : (incremented e.session).State = LoginState.Success
        ∨ (incremented e.session).State = LoginState.Corrupted := by
      have := incremented_resolved e.session hne
      cases hs : (incremented e.session).State
      · exact absurd hs this
      · exact Or.inl rfl
      · exact Or.inr rfl
    have ih' := ih (CheckUserLoginCode s token c).1 ⟨incremented e.session, 180⟩ hnext hr'
    refine ⟨?_, ih'.2⟩
    intro r hrm
    simp only [checkCalls, List.mem_cons] at hrm
    rcases hrm with hrm | hrm
    · rw [hrm, hstep]
    · exact ih'.1 r hrm

/-- C2: once the stored state of a session is `Success` or `Corrupted`, every later
`CheckUserLoginCode` call on its token, whatever code it submits, returns the
"invalid code" error with otp id 0, and the state stays `Success` or `Corrupted`.  The
numbers of the session are those the JSON codecs carry unchanged along the run: the
tries plus the number of calls, and the otp id, are below `jsonExactBound`. -/
theorem resolved_session_rejects_every_code (s : Store) (token : String) (e : Entry)
    (codes : List String) (h : s token = some e)
    (hr : e.session.State = LoginState.Success ∨ e.session.State = LoginState.Corrupted)
    (_hnum : e.session.Tries + codes.length < jsonExactBound
      ∧ e.session.OtpID < jsonExactBound) :
    (∀ r ∈ (checkCalls token s codes).2, r = (0, some "invalid code"))
    ∧ (storedState (checkCalls token s codes).1 token = some LoginState.Success
        ∨ storedState (checkCalls token s codes).1 token = some LoginState.Corrupted) :=
  checkCalls_resolved s token e codes h hr

/-- C2 witness: a session that succeeded on its third try rejects its own code twice. -/
theorem resolved_session_rejects_every_code_witness :
    (∀ r ∈ (checkCalls "k" succeededOnThirdTry ["ABC123", "ABC123"]).2,
        r = (0, some "invalid code"))
    ∧ (storedState (checkCalls "k" succeededOnThirdTry ["ABC123", "ABC123"]).1 "k"
          = some LoginState.Success
        ∨ storedState (checkCalls "k" succeededOnThirdTry ["ABC123", "ABC123"]).1 "k"
          = some LoginState.Corrupted) :=
  resolved_session_rejects_every_code succeededOnThirdTry "k"
    ⟨{ Tries := 3, OtpID := 7, Code := "ABC123", PhoneNumber := "",
       State := LoginState.Success }, 180⟩ ["ABC123", "ABC123"] (by decide) (Or.inl rfl)
    (by decide)

/-- C3, as stated, fails: a session in state `Success` with 3 tries is moved to
`Corrupted` by one `IncreaseUserLoginTries` call and by one `CheckUserLoginCode` call. -/
theorem success_is_left_for_corrupted :
    storedState succeededOnThirdTry "k" = some LoginState.Success
    ∧ storedState (IncreaseUserLoginTries succeededOnThirdTry "k").1 "k"
        = some LoginState.Corrupted
    ∧ storedState (CheckUserLoginCode succeededOnThirdTry "k" "ABC123").1 "k"
        = some LoginState.Corrupted := by
  decide

/-- C3, amended: `Corrupted` is terminal and `Success` is left only for `Corrupted`.
For every stored session whose state is `Success` or `Corrupted`, after one
`IncreaseUserLoginTries` or `CheckUserLoginCode` call the stored state is `Corrupted`
when the incremented tries exceed 3 and the state before the call otherwise; so a
`Corrupted` state is kept, a `Success` state is kept or becomes `Corrupted`, and the
only state changes are `Waiting` to `Success`, `Waiting` to `Corrupted` and `Success`
to `Corrupted`. -/
theorem resolved_state_transitions (s : Store) (token code : String) (e : Entry)
    (h : s token = some e)
    (hr : e.session.State = LoginState.Success ∨ e.session.State = LoginState.Corrupted) :
    storedState (IncreaseUserLoginTries s token).1 token
        = some (if e.session.Tries + 1 > 3 then LoginState.Corrupted else e.session.State)
    ∧ storedState (CheckUserLoginCode s token code).1 token
        = some (if e.session.Tries + 1 > 3 then LoginState.Corrupted else e.session.State)
    ∧ (if e.session.Tries + 1 > 3 then LoginState.Corrupted else e.session.State)
        ≠ LoginState.Waiting
    ∧ (e.session.State = LoginState.Corrupted →
        (if e.session.Tries + 1 > 3 then LoginState.Corrupted else e.session.State)
          = LoginState.Corrupted) := by
  have hne : e.session.State ≠ LoginState.Waiting := by
    rcases hr with hr | hr <;> rw [hr] <;> decide
  refine ⟨?_, ?_, ?_, ?_⟩
  · rw [increase_present s token e h]
    simp [storedState, Store.set_same, incremented]
  · rw [check_resolved s token code e h hne]
    simp [storedState, Store.set_same, incremented]
  · split_ifs
    · decide
    · exact hne
  · intro hc
    split_ifs
    · rfl
    · exact hc

/-- C3 witness: the amended statement at the session that succeeded on its third try. -/
theorem resolved_state_transitions_witness :
    storedState (IncreaseUserLoginTries succeededOnThirdTry "k").1 "k"
        = some (if 3 + 1 > 3 then LoginState.Corrupted else LoginState.Success)
    ∧ storedState (CheckUserLoginCode succeededOnThirdTry "k" "ZZZ999").1 "k"
        = some (if 3 + 1 > 3 then LoginState.Corrupted else LoginState.Success) :=
  ⟨(resolved_state_transitions succeededOnThirdTry "k" "ZZZ999"
      ⟨{ Tries := 3, OtpID := 7, Code := "ABC123", PhoneNumber := "",
         State := LoginState.Success }, 180⟩ (by decide) (Or.inl rfl)).1,
   (resolved_state_transitions succeededOnThirdTry "k" "ZZZ999"
      ⟨{ Tries := 3, OtpID := 7, Code := "ABC123", PhoneNumber := "",
         State := LoginState.Success }, 180⟩ (by decide) (Or.inl rfl)).2.1⟩

/-- C4: for an existing session `{t, o, c, s}` whose numbers the JSON codecs carry
unchanged (`t + 1` and `o` below `jsonExactBound`), `IncreaseUserLoginTries` stores
under the key, with a 180-second expiry, and returns the record `{t+1, o, c, s'}` where
`s'` is `Corrupted` if `t+1 > 3` and `s` otherwise; other keys are untouched; the error
is "invalid code" exactly when `s'` is `Success` or `Corrupted` and nil when it is
`Waiting`. -/
theorem increaseUserLoginTries_spec (s : Store) (key : String)
    (t o : Nat) (c p : String) (st : LoginState) (ttl : Nat)
    (h : s key = some ⟨⟨t, o, c, p, st⟩, ttl⟩)
    (_ht : t + 1 < jsonExactBound) (_ho : o < jsonExactBound) :
    (IncreaseUserLoginTries s key).1 key
        = some ⟨⟨t + 1, o, c, p, if t + 1 > 3 then LoginState.Corrupted else st⟩, 180⟩
    ∧ (∀ k, k ≠ key → (IncreaseUserLoginTries s key).1 k = s k)
    ∧ (IncreaseUserLoginTries s key).2.1
        = some ⟨t + 1, o, c, p, if t + 1 > 3 then LoginState.Corrupted else st⟩
    ∧ ((IncreaseUserLoginTries s key).2.2 = some "invalid code" ↔
        ((if t + 1 > 3 then LoginState.Corrupted else st) = LoginState.Success
          ∨ (if t + 1 > 3 then LoginState.Corrupted else st) = LoginState.Corrupted))
    ∧ ((IncreaseUserLoginTries s key).2.2 = none ↔
        (if t + 1 > 3 then LoginState.Corrupted else st) = LoginState.Waiting) := by
  rw [increase_present s key _ h]
  refine ⟨Store.set_same s key _ 180, ?_, rfl, ?_, ?_⟩
  · intro k hk
    simp [Store.set, hk]
  · by_cases ht : t + 1 > 3 <;> cases st <;> simp [incremented, ht]
  · by_cases ht : t + 1 > 3 <;> cases st <;> simp [incremented, ht]

/-- C4 witness: the fourth increment of a waiting session. -/
theorem increaseUserLoginTries_spec_witness :
    (IncreaseUserLoginTries
        (Store.set (fun _ => none) "k" ⟨3, 7, "ABC123", "", LoginState.Waiting⟩ 42) "k").2.1
      = some ⟨4, 7, "ABC123", "", LoginState.Corrupted⟩ :=
  (increaseUserLoginTries_spec
    (Store.set (fun _ => none) "k" ⟨3, 7, "ABC123", "", LoginState.Waiting⟩ 42) "k"
    3 7 "ABC123" "" LoginState.Waiting 42 (by decide) (by decide) (by decide)).2.2.1

/-- C5: on a freshly created session, wrong codes in the first three calls are each
answered "invalid code" and leave the state `Waiting`; the fourth call of any run is
answered "invalid code" whatever its code and leaves the state `Corrupted`; at most one
call of the run succeeds, and a call that succeeds is among the first three.  The
numbers of the session are those the JSON codecs carry unchanged along the run: the otp
id and the number of calls are below `jsonExactBound`. -/
theorem fresh_session_guess_budget (s : Store) (key : String) (otpID : Nat) (code : String)
    (codes : List String) (_ho : otpID < jsonExactBound)
    (_hn : codes.length < jsonExactBound) :
    (∀ n, n ≤ 3 → (∀ c ∈ codes.take n, c ≠ code) →
        (∀ r ∈ (checkCalls key (CreateUserLoginSession s key otpID code).1 codes).2.take n,
            r = (0, some "invalid code"))
        ∧ storedState
            (checkCalls key (CreateUserLoginSession s key otpID code).1 (codes.take n)).1 key
          = some LoginState.Waiting)
    ∧ (4 ≤ codes.length →
        (checkCalls key (CreateUserLoginSession s key otpID code).1 codes).2[3]?
          = some (0, some "invalid code")
        ∧ storedState
            (checkCalls key (CreateUserLoginSession s key otpID code).1 (codes.take 4)).1 key
          = some LoginState.Corrupted)
    ∧ ((checkCalls key (CreateUserLoginSession s key otpID code).1 codes).2.filter
          (fun r => r.2.isNone)).length ≤ 1
    ∧ (∀ i r, (checkCalls key (CreateUserLoginSession s key otpID code).1 codes).2[i]? = some r →
        r.2 = none → i < 3) := by
  have h0 := create_store s key otpID code
  refine ⟨?_, ?_, ?_, ?_⟩
  · intro n hn hw
    have hlen : (codes.take n).length ≤ 3 := by
      rw [List.length_take]
      omega
    have := checkCalls_wrong key _ _ (codes.take n) h0 rfl (by simpa using hlen) hw
    rw [checkCalls_take] at this
    exact ⟨this.1, this.2.1⟩
  · intro hlen
    constructor
    · have hlt : 3 < (checkCalls key (CreateUserLoginSession s key otpID code).1 codes).2.length := by
        rw [checkCalls_length]
        omega
      have hget := List.getElem?_eq_getElem hlt
      have hmem := List.getElem_mem hlt
      rcases checkCalls_results key _ _ codes h0 _ hmem with hnone | hbad
      · have := (checkCalls_success_index key _ _ codes h0 3 _ hget hnone).2
        simp at this
      · rw [hget, hbad]
    · obtain ⟨e', h1, h2, h3⟩ := checkCalls_final key _ _ (codes.take 4) h0 (by
        intro hnil
        have := congrArg List.length hnil
        rw [List.length_take, List.length_nil] at this
        omega)
      have h4 : e'.session.Tries = 4 := by
        rw [h2, List.length_take]
        show 0 + min 4 codes.length = 4
        omega
      simp [storedState, h1, h3 (by omega)]
  · simpa using checkCalls_success_count key _ _ codes h0
  · intro i r hi hr
    have := (checkCalls_success_index key _ _ codes h0 i r hi hr).2
    simpa using this

/-- C5 witness: on a fresh session with otp id 7, after three wrong codes the fourth call
is answered "invalid code" although it carries the stored code, and the state is
`Corrupted`. -/
theorem fresh_session_guess_budget_witness :
    (checkCalls "k" (CreateUserLoginSession (fun _ => none) "k" 7 "ABC123").1
        ["XXXXXX", "YYYYYY", "ZZZZZZ", "ABC123"]).2[3]? = some (0, some "invalid code")
    ∧ storedState
        (checkCalls "k" (CreateUserLoginSession (fun _ => none) "k" 7 "ABC123").1
          (["XXXXXX", "YYYYYY", "ZZZZZZ", "ABC123"].take 4)).1 "k"
      = some LoginState.Corrupted :=
  (fresh_session_guess_budget (fun _ => none) "k" 7 "ABC123"
    ["XXXXXX", "YYYYYY", "ZZZZZZ", "ABC123"] (by decide) (by decide)).2.1 (by decide)

/-- C7: one `CheckUserLoginCode` call on an existing session leaves the stored tries
exactly one higher, whatever the submitted code and the state; over a sequential run of
session operations on the token the stored tries grow by one per operation, so they
never decrease along the run.  The tries are those the script counts exactly: the
stored tries plus the number of operations are below `jsonExactBound`. -/
theorem every_attempt_counts (s : Store) (token code : String) (e : Entry)
    (h : s token = some e) :
    (e.session.Tries + 1 < jsonExactBound →
        storedTries (CheckUserLoginCode s token code).1 token = some (e.session.Tries + 1))
    ∧ (∀ ops, e.session.Tries + ops.length < jsonExactBound →
        storedTries (runOps token s ops) token = some (e.session.Tries + ops.length))
    ∧ (∀ ops more, e.session.Tries + (ops ++ more).length < jsonExactBound →
        ∃ a b, storedTries (runOps token s ops) token = some a
          ∧ storedTries (runOps token s (ops ++ more)) token = some b ∧ a ≤ b) := by
  refine ⟨?_, fun ops _ => runOps_tries token s e ops h, ?_⟩
  · intro _
    simp [storedTries, check_store s token code e h, afterCheck_Tries]
  · intro ops more _
    refine ⟨_, _, runOps_tries token s e ops h, runOps_tries token s e (ops ++ more) h, ?_⟩
    rw [List.length_append]
    omega

/-- C7 witness: a correct guess on a waiting session with one earlier try. -/
theorem every_attempt_counts_witness :
    storedTries (CheckUserLoginCode
        (Store.set (fun _ => none) "k" ⟨1, 7, "ABC123", "", LoginState.Waiting⟩ 180)
        "k" "ABC123").1 "k" = some (1 + 1) :=
  (every_attempt_counts
    (Store.set (fun _ => none) "k" ⟨1, 7, "ABC123", "", LoginState.Waiting⟩ 180)
    "k" "ABC123" ⟨⟨1, 7, "ABC123", "", LoginState.Waiting⟩, 180⟩ (by decide)).1
    (by decide)

/-- C8: after `CreateUserLoginSession(otpID, code)` with an otp id the JSON codecs carry
unchanged (below `jsonExactBound`) and a 6-character code over `A`-`Z`, `0`-`9` returned
token `key`, the store maps `key` to `{tries 0, otpID, code, Waiting}` with a 180-second
expiry; the next `CheckUserLoginCode(key, code)` returns `otpID` with a nil error and
stores `Success`; a second call with any code returns "invalid code". -/
theorem create_then_check_round_trip (s : Store) (key : String) (otpID : Nat)
    (code other : String) (_hcode : isOtpCode code = true)
    (_ho : otpID < jsonExactBound) :
    (CreateUserLoginSession s key otpID code).2 = (key, none)
    ∧ (CreateUserLoginSession s key otpID code).1 key
        = some ⟨⟨0, otpID, code, "", LoginState.Waiting⟩, 180⟩
    ∧ (CheckUserLoginCode (CreateUserLoginSession s key otpID code).1 key code).2
        = (otpID, none)
    ∧ storedState (CheckUserLoginCode (CreateUserLoginSession s key otpID code).1 key code).1 key
        = some LoginState.Success
    ∧ (CheckUserLoginCode
          (CheckUserLoginCode (CreateUserLoginSession s key otpID code).1 key code).1
          key other).2 = (0, some "invalid code") := by
  have h0 := create_store s key otpID code
  have hcond : (incremented (⟨0, otpID, code, "", LoginState.Waiting⟩ : UserLoginSession)).State
      = LoginState.Waiting
      ∧ (incremented (⟨0, otpID, code, "", LoginState.Waiting⟩ : UserLoginSession)).Code
        = code := ⟨rfl, rfl⟩
  have h1 := check_store _ key code _ h0
  have hs : (afterCheck ⟨0, otpID, code, "", LoginState.Waiting⟩ code).State
      = LoginState.Success := by
    unfold afterCheck
    rw [if_pos hcond]
  refine ⟨rfl, h0, ?_, ?_, ?_⟩
  · rw [check_result _ key code _ h0, if_pos hcond]
  · simp [storedState, h1, hs]
  · rw [check_resolved _ key other _ h1 (by simp [hs])]

/-- C8 witness: the round trip for otp id 7 and code `ABC123`. -/
theorem create_then_check_round_trip_witness :
    (CheckUserLoginCode (CreateUserLoginSession (fun _ => none) "k" 7 "ABC123").1
        "k" "ABC123").2 = (7, none)
    ∧ (CheckUserLoginCode
          (CheckUserLoginCode (CreateUserLoginSession (fun _ => none) "k" 7 "ABC123").1
            "k" "ABC123").1
          "k" "ZZZ999").2 = (0, some "invalid code") :=
  ⟨(create_then_check_round_trip (fun _ => none) "k" 7 "ABC123" "ZZZ999" (by decide)
      (by decide)).2.2.1,
   (create_then_check_round_trip (fun _ => none) "k" 7 "ABC123" "ZZZ999" (by decide)
      (by decide)).2.2.2.2⟩

/-- C9, as the code behaves: for a token that is not a key of the store the script
replies `nil`, the client reports it as the error `redis.Nil`, and `IncreaseUserLoginTries`
and `CheckUserLoginCode` return that error, "redis: nil", at the `err != nil` test.
They return no session and otp id 0, and the store they leave is the store they found.
The "session not found" return behind the test is reached on no store and no key. -/
theorem absent_token_reports_redis_nil (s : Store) (token code : String)
    (h : s token = none) :
    IncreaseUserLoginTries s token = (s, none, some "redis: nil")
    ∧ CheckUserLoginCode s token code = (s, 0, some "redis: nil")
    ∧ (∀ (s' : Store) (key code' : String),
        (IncreaseUserLoginTries s' key).2.2 ≠ some "session not found"
        ∧ (CheckUserLoginCode s' key code').2.2 ≠ some "session not found") := by
  refine ⟨increase_absent s token h, check_absent s token code h, ?_⟩
  intro s' key code'
  constructor
  · cases hk : s' key with
    | none =>
      rw [increase_absent s' key hk]
      simp
    | some e =>
      rw [increase_present s' key e hk]
      by_cases hs : (incremented e.session).State = LoginState.Waiting
      · simp [hs]
      · simp [hs]
  · intro herr
    rcases check_error_kinds s' key code' _ herr with hbad | hbad
    · exact absurd hbad (by decide)
    · exact absurd hbad (by decide)

/-- C9 witness: an unknown token on the empty store. -/
theorem absent_token_reports_redis_nil_witness :
    IncreaseUserLoginTries (fun _ => none) "k" = ((fun _ => none), none, some "redis: nil")
    ∧ CheckUserLoginCode (fun _ => none) "k" "ABC123"
        = ((fun _ => none), 0, some "redis: nil") :=
  ⟨(absent_token_reports_redis_nil (fun _ => none) "k" "ABC123" rfl).1,
   (absent_token_reports_redis_nil (fun _ => none) "k" "ABC123" rfl).2.1⟩

/-- C6, evaluated on two schedules of two concurrent calls.  With both calls carrying the
correct code and the schedule script 0, script 1, write 1, write 0, both calls return
the otp id with a nil error and the last write takes the stored tries from 2 back to 1.
With the session at 2 tries, call 0 correct and call 1 wrong, the schedule script 0,
script 1, write 0 takes the stored session from `Corrupted` with 4 tries to `Success`
with 3 tries. -/
theorem concurrent_checks_break_invariants :
    (World.run "k" (twoCalls 0 "ABC123" "ABC123") [0, 1, 1, 0]).successes = [7, 7]
    ∧ storedTries (World.run "k" (twoCalls 0 "ABC123" "ABC123") [0, 1, 1]).store "k" = some 2
    ∧ storedTries (World.run "k" (twoCalls 0 "ABC123" "ABC123") [0, 1, 1, 0]).store "k" = some 1
    ∧ (World.run "k" (twoCalls 2 "ABC123" "XXXXXX") [0, 1]).store "k"
        = some ⟨⟨4, 7, "ABC123", "", LoginState.Corrupted⟩, 180⟩
    ∧ (World.run "k" (twoCalls 2 "ABC123" "XXXXXX") [0, 1, 0]).store "k"
        = some ⟨⟨3, 7, "ABC123", "", LoginState.Success⟩, 180⟩
    ∧ (World.run "k" (twoCalls 2 "ABC123" "XXXXXX") [0, 1, 0]).calls
        = [CallState.returned 7 none, CallState.returned 0 (some "invalid code")] := by
  decide

/-! ## The rate limiter -/

/-- C10: for `maxRequests >= 0` and every window length, the `k`-th `CheckRateLimit` call
(`k >= 1`) of a run that starts a window on the key and in which the key is alive at
every later call returns `allowed = (k <= maxRequests)`, `remaining = max 0 (maxRequests - k)`
and a nil error, so `remaining` is never negative; with `maxRequests = 5` and
`window = 60` the 6th call returns `allowed = false` and `remaining = 0`.  The count is
a 64-bit Redis integer, so the run has at most `maxInt64` calls. -/
theorem rate_limit_kth_call (s : CounterStore) (key : String) (maxRequests windowSeconds : Int)
    (t : Nat) (ts : List Nat) (h0 : 0 ≤ maxRequests) (h1 : maxRequests ≤ maxInt64)
    (hlen : ((t :: ts).length : Int) ≤ maxInt64) (hnew : s.get t key = none)
    (hlive : staysLive key maxRequests windowSeconds s (t :: ts) = true) :
    (∀ k : Nat, 1 ≤ k → k ≤ (t :: ts).length →
        (rateLimitCalls key maxRequests windowSeconds s (t :: ts))[k - 1]?
          = some (decide ((k : Int) ≤ maxRequests), max 0 (maxRequests - k), none)
        ∧ 0 ≤ max 0 (maxRequests - (k : Int)))
    ∧ (maxRequests = 5 → windowSeconds = 60 → 6 ≤ (t :: ts).length →
        (rateLimitCalls key maxRequests windowSeconds s (t :: ts))[5]?
          = some (false, 0, none)) := by
  have hrun := rateLimitCalls_get key maxRequests windowSeconds s (t :: ts) 0
    (by
      intro u hu
      simp only [List.head?_cons, Option.mem_def, Option.some.injEq] at hu
      rw [← hu]
      simp [countAt, hnew])
    (le_refl 0) (by simpa using hlen) h0 h1 hlive
  constructor
  · intro k hk1 hk
    refine ⟨?_, le_max_left 0 _⟩
    have := hrun (k - 1) (by omega)
    rw [this]
    have e : (0 : Int) + ((k - 1 : Nat) : Int) + 1 = (k : Int) := by omega
    rw [e]
  · intro hm _ h6
    have := hrun 5 (by omega)
    rw [this, hm]
    rfl

/-- C10 witness: six calls ten seconds apart with `maxRequests = 5`, `window = 60`. -/
theorem rate_limit_kth_call_witness :
    (rateLimitCalls "rate_limit:user:10.0.0.1" 5 60 (fun _ => none) [0, 10, 20, 30, 40, 50])[5]?
      = some (false, 0, none) :=
  (rate_limit_kth_call (fun _ => none) "rate_limit:user:10.0.0.1" 5 60 0 [10, 20, 30, 40, 50]
    (by decide) (by decide) (by decide) rfl (by decide)).2 rfl rfl (by decide)

/-- C11, as stated, fails: with `maxRequests = 5` and `window = 60`, six calls 15 seconds
apart keep the counter alive, and the sixth, made 75 seconds after the first call of
the window, is counted as call 6 and refused. -/
theorem window_is_extended_by_every_call :
    (rateLimitCalls "rate_limit:auth:10.0.0.1" 5 60 (fun _ => none) [0, 15, 30, 45, 60, 75])[5]?
      = some (false, 0, none) := by
  decide

/-- C11, amended: the counter expires with the previous call, not with the first call of
the window.  For `windowSeconds >= 0` and `1 <= maxRequests`, a call made more than
`windowSeconds` after the previous call on the key, whatever the keyspace before that
call, is counted as call 1 of a new window: it returns `allowed = true`,
`remaining = maxRequests - 1` and a nil error.  Every call resets the expiry of the
counter to `windowSeconds`: for a window of 1 to 9223372036 seconds the counter a call at
time `prev` leaves has the expiry time `prev + windowSeconds`, so the key is alive at
exactly the times up to and including `prev + windowSeconds`, and a call made in that
span on a counter below the 64-bit limit finds the count of the previous call. -/
theorem rate_limit_window_restarts_after_previous_call (s : CounterStore) (key : String)
    (maxRequests windowSeconds : Int) (prev : Nat) (hw : 0 ≤ windowSeconds)
    (h1 : 1 ≤ maxRequests) (h2 : maxRequests ≤ maxInt64) :
    (∀ now : Nat, (prev : Int) + windowSeconds < now →
        (CheckRateLimit (CheckRateLimit s prev key maxRequests windowSeconds).1 now key
          maxRequests windowSeconds).2 = (true, maxRequests - 1, none))
    ∧ (1 ≤ windowSeconds → windowSeconds ≤ 9223372036 →
        (∃ c, (CheckRateLimit s prev key maxRequests windowSeconds).1 key
            = some ⟨c, some (prev + windowSeconds.toNat)⟩)
        ∧ (∀ t : Nat, ((CheckRateLimit s prev key maxRequests windowSeconds).1.get t key).isSome
            ↔ (t : Int) ≤ prev + windowSeconds)
        ∧ (∀ t : Nat, (t : Int) ≤ prev + windowSeconds → countAt s prev key < maxInt64 →
            countAt (CheckRateLimit s prev key maxRequests windowSeconds).1 t key
              = countAt s prev key + 1)) := by
  constructor
  · intro now h
    have hdead := checkRateLimit_dead s key maxRequests windowSeconds prev now hw h
    have hc : countAt (CheckRateLimit s prev key maxRequests windowSeconds).1 now key = 0 := by
      simp [countAt, hdead]
    rw [checkRateLimit_result _ now key maxRequests windowSeconds (by rw [hc])
      (by rw [hc]; decide) (by omega) h2, hc]
    have hmax : max 0 (maxRequests - (0 + 1)) = maxRequests - 1 := by
      rw [max_eq_right (by omega)]
      ring
    rw [hmax]
    simp [h1]
  · intro hw1 hw2
    obtain ⟨c, hc⟩ := checkRateLimit_expiry s key maxRequests windowSeconds prev hw1 hw2
    have hlive : ∀ t : Nat,
        ((CheckRateLimit s prev key maxRequests windowSeconds).1.get t key).isSome
          ↔ (t : Int) ≤ prev + windowSeconds := by
      intro t
      rw [get_isSome_of_expiry _ key c _ t hc]
      omega
    refine ⟨⟨c, hc⟩, hlive, ?_⟩
    intro t ht hj
    exact checkRateLimit_next s prev key maxRequests windowSeconds t hj ((hlive t).2 ht)

/-- C11 witness: with `maxRequests = 5`, `window = 60`, after the sixth call of a burst,
made at second 75, the counter is alive at second 135 and a call at second 136 is allowed
again. -/
theorem rate_limit_window_restarts_after_previous_call_witness :
    (CheckRateLimit
        (CheckRateLimit (fun _ => none) 75 "rate_limit:auth:10.0.0.1" 5 60).1
        136 "rate_limit:auth:10.0.0.1" 5 60).2 = (true, 5 - 1, none)
    ∧ ((CheckRateLimit (fun _ => none) 75 "rate_limit:auth:10.0.0.1" 5 60).1.get 135
          "rate_limit:auth:10.0.0.1").isSome = true :=
  ⟨(rate_limit_window_restarts_after_previous_call (fun _ => none)
      "rate_limit:auth:10.0.0.1" 5 60 75 (by decide) (by decide) (by decide)).1 136
      (by decide),
   (((rate_limit_window_restarts_after_previous_call (fun _ => none)
      "rate_limit:auth:10.0.0.1" 5 60 75 (by decide) (by decide) (by decide)).2
      (by decide) (by decide)).2.1 135).2 (by decide)⟩

/-! ## The transaction middleware -/

/-- C12, evaluated on handlers that do not panic, the transaction being open.  A handler
that returns without writing gets status 200 from net/http and a `Rollback`; a handler
that calls `WriteHeader(201)` and then `WriteHeader(500)` gets status 201 and a
`Rollback`; a handler that calls `WriteHeader(500)` and then `WriteHeader(200)` gets
status 500 and a `Commit`.  A handler that only writes a body gets 200 and a `Commit`. -/
theorem transaction_follows_captured_status :
    (Transaction none none none ⟨[], none⟩ ⟨none⟩).txCalls = [TxCall.Rollback]
    ∧ (Transaction none none none ⟨[], none⟩ ⟨none⟩).w.statusSent = 200
    ∧ (Transaction none none none
        ⟨[WriterCall.WriteHeader 201, WriterCall.WriteHeader 500], none⟩ ⟨none⟩).txCalls
        = [TxCall.Rollback]
    ∧ (Transaction none none none
        ⟨[WriterCall.WriteHeader 201, WriterCall.WriteHeader 500], none⟩ ⟨none⟩).w.statusSent
        = 201
    ∧ (Transaction none none none
        ⟨[WriterCall.WriteHeader 500, WriterCall.WriteHeader 200], none⟩ ⟨none⟩).txCalls
        = [TxCall.Commit]
    ∧ (Transaction none none none
        ⟨[WriterCall.WriteHeader 500, WriterCall.WriteHeader 200], none⟩ ⟨none⟩).w.statusSent
        = 500
    ∧ (Transaction none none none ⟨[WriterCall.Write], none⟩ ⟨none⟩).txCalls = [TxCall.Commit]
    ∧ (Transaction none none none ⟨[WriterCall.Write], none⟩ ⟨none⟩).w.statusSent = 200 := by
  decide

/-- C13: when the transaction is open and the wrapped handler panics with value `v`,
whatever it wrote before, the middleware calls `Rollback` once, never `Commit`, and
panics again with `v`; the result of the rollback does not matter. -/
theorem transaction_panic_rolls_back (commitErr rollbackErr : Option Error)
    (calls : List WriterCall) (v : String) (w : ResponseWriter) :
    (Transaction none commitErr rollbackErr ⟨calls, some v⟩ w).txCalls = [TxCall.Rollback]
    ∧ TxCall.Commit ∉ (Transaction none commitErr rollbackErr ⟨calls, some v⟩ w).txCalls
    ∧ (Transaction none commitErr rollbackErr ⟨calls, some v⟩ w).panicValue = some v := by
  simp [Transaction]

/-- C14, as the code behaves: whenever the wrapped handler finished with a captured 2xx
status and `Commit` then returns an error, the header is already written, so the call
`http.Error(w, ..., 500)` of the middleware changes nothing: the status the client
receives is the one the handler sent, not 500 (unless the handler sent 500 itself). -/
theorem commit_failure_keeps_handler_status (err : Error) (rollbackErr : Option Error)
    (calls : List WriterCall)
    (h2xx : 200 ≤ (responseWriter.serve ⟨⟨none⟩, 0⟩ calls).statusCode
      ∧ (responseWriter.serve ⟨⟨none⟩, 0⟩ calls).statusCode < 300) :
    (Transaction none (some err) rollbackErr ⟨calls, none⟩ ⟨none⟩).txCalls = [TxCall.Commit]
    ∧ (Transaction none (some err) rollbackErr ⟨calls, none⟩ ⟨none⟩).w
        = (responseWriter.serve ⟨⟨none⟩, 0⟩ calls).ResponseWriter
    ∧ (responseWriter.serve ⟨⟨none⟩, 0⟩ calls).ResponseWriter.wroteHeader ≠ none := by
  have hne : calls ≠ [] := by
    intro hnil
    rw [hnil] at h2xx
    simp [responseWriter.serve] at h2xx
  have hw := serve_wrote_header calls ⟨⟨none⟩, 0⟩ hne
  have hrange : (responseWriter.serve ⟨⟨none⟩, 0⟩ calls).statusCode ≥ 200
      ∧ (responseWriter.serve ⟨⟨none⟩, 0⟩ calls).statusCode < 300 := h2xx
  simp only [Transaction, if_pos hrange]
  exact ⟨trivial, httpError_after_header _ 500 hw, hw⟩

/-- C14 witness: the handler answers 201 with a body, `Commit` fails, and the client
receives 201. -/
theorem commit_failure_keeps_handler_status_witness :
    (Transaction none (some "commit failed") none
        ⟨[WriterCall.WriteHeader 201, WriterCall.Write], none⟩ ⟨none⟩).w
      = ⟨some 201⟩ :=
  (commit_failure_keeps_handler_status "commit failed" none
    [WriterCall.WriteHeader 201, WriterCall.Write] (by decide)).2.1

/-! ## Tokens and authentication -/

/-- C16, evaluated.  The older `ParseToken` panics on an `Authorization` header without
a space (`abc`), whatever the library, the key and the time, and it accepts a valid
token under a scheme other than `Bearer`.  The newer `ParseTokenFromHeader` never
panics, and it returns claims only for a non-empty header that starts with `Bearer `
and carries a token that parses, whose signature matches the secret key and whose
`exp`, if any, lies after the current time. -/
theorem old_token_parser_panics_without_space (lib : JwtLib) (appSettings : Config)
    (now : Int) (r : Request) :
    ParseToken lib appSettings.secretKey now (requestWithAuthorization "abc")
      = Outcome.panic "runtime error: index out of range [1] with length 1"
    ∧ ParseToken dotJwt "secret" exampleNow
        (requestWithAuthorization
          ("Basic " ++ (GenerateToken dotJwt exampleSettings exampleNow 7 AudianceUser).1))
      = Outcome.ok (newClaims exampleSettings exampleNow 7 AudianceUser)
    ∧ ParseToken lib appSettings.secretKey now requestWithoutHeaders
      = Outcome.error "no authorization header"
    ∧ (∀ msg, ParseTokenFromHeader lib appSettings now r "Authorization" ≠ Outcome.panic msg)
    ∧ (∀ claims, ParseTokenFromHeader lib appSettings now r "Authorization" = Outcome.ok claims →
        r.HeaderGet "Authorization" ≠ ""
        ∧ HasPrefix (r.HeaderGet "Authorization") "Bearer " = true
        ∧ lib.decode (TrimPrefix (r.HeaderGet "Authorization") "Bearer ")
            = some (claims, lib.sign appSettings.secretKey claims)
        ∧ ∀ exp, claims.ExpiresAt = some exp → now < exp * 1000000000) := by
  have hshape : ParseTokenFromHeader lib appSettings now r "Authorization"
      = if r.HeaderGet "Authorization" = "" then
          Outcome.error "no authorization header 'Authorization'"
        else if HasPrefix (r.HeaderGet "Authorization") "Bearer " = true then
          match ParseWithClaims lib appSettings.secretKey now
              (TrimPrefix (r.HeaderGet "Authorization") "Bearer ") with
          | Except.error err => Outcome.error ("invalid token: " ++ err)
          | Except.ok claims => Outcome.ok claims
        else Outcome.error "invalid authorization header format: missing Bearer prefix" := by
    simp only [ParseTokenFromHeader]
    by_cases h1 : r.HeaderGet "Authorization" = ""
    · simp [h1]
    · by_cases h2 : HasPrefix (r.HeaderGet "Authorization") "Bearer " = true
      · simp [h1, h2]
      · simp [h1, h2]
  refine ⟨rfl, by decide, rfl, ?_, ?_⟩
  · intro msg
    rw [hshape]
    split_ifs
    · simp
    · cases ParseWithClaims lib appSettings.secretKey now
        (TrimPrefix (r.HeaderGet "Authorization") "Bearer ") <;> simp
    · simp
  · intro claims
    rw [hshape]
    split_ifs with hempty hpre
    · simp
    · intro hok
      refine ⟨hempty, hpre, ?_⟩
      unfold ParseWithClaims at hok
      cases hd : lib.decode (TrimPrefix (r.HeaderGet "Authorization") "Bearer ") with
      | none => simp [hd] at hok
      | some p =>
        obtain ⟨c, sig⟩ := p
        simp only [hd] at hok
        by_cases hsig : lib.sign appSettings.secretKey c = sig
        · cases he : c.ExpiresAt with
          | none =>
            simp [hsig, he] at hok
            subst hok
            subst hsig
            exact ⟨rfl, by simp [he]⟩
          | some exp =>
            by_cases hlt : now < exp * 1000000000
            · simp [hsig, he, hlt] at hok
              subst hok
              subst hsig
              refine ⟨rfl, ?_⟩
              intro exp' he'
              rw [he] at he'
              cases he'
              exact hlt
            · simp [hsig, he, hlt] at hok
        · simp [hsig] at hok
    · simp

/-- C17: a request that carries a generated user token is answered 401 by
`AdminAuthenticator.Authenticate`, and one that carries a generated admin token is
answered 401 by `Authenticator.Authenticate`, at every time and for every subject id
and table; the next handler is not served.  The library reads back the tokens it
wrote. -/
theorem tokens_scoped_to_audience (lib : JwtLib) (appSettings : Config)
    (admins : List Admin) (users : List User) (t0 now : Int) (id : Nat)
    (rUser rAdmin : Request)
    (hrtUser : lib.decode (GenerateToken lib appSettings t0 id AudianceUser).1
      = some (newClaims appSettings t0 id AudianceUser,
          lib.sign appSettings.secretKey (newClaims appSettings t0 id AudianceUser)))
    (hhdrUser : rUser.HeaderGet "Authorization"
      = "Bearer " ++ (GenerateToken lib appSettings t0 id AudianceUser).1)
    (hrtAdmin : lib.decode (GenerateToken lib appSettings t0 id AudianceAdmin).1
      = some (newClaims appSettings t0 id AudianceAdmin,
          lib.sign appSettings.secretKey (newClaims appSettings t0 id AudianceAdmin)))
    (hhdrAdmin : rAdmin.HeaderGet "Authorization"
      = "Bearer " ++ (GenerateToken lib appSettings t0 id AudianceAdmin).1) :
    AdminAuthenticator.Authenticate lib appSettings admins now rUser = Answer.respond 401
    ∧ Authenticator.Authenticate lib appSettings users now rAdmin = Answer.respond 401 := by
  have hu := parseToken_generated lib appSettings t0 now id AudianceUser rUser hrtUser hhdrUser
  have ha := parseToken_generated lib appSettings t0 now id AudianceAdmin rAdmin hrtAdmin
    hhdrAdmin
  constructor
  · split_ifs at hu
    · exact admin_answer_of_claims lib appSettings admins now rUser _ hu
        (by show AudianceUser ≠ AudianceAdmin; decide)
    · exact admin_answer_of_error lib appSettings admins now rUser _ hu
  · split_ifs at ha
    · exact user_answer_of_claims lib appSettings users now rAdmin _ ha
        (by show AudianceAdmin ≠ AudianceUser; decide)
    · exact user_answer_of_error lib appSettings users now rAdmin _ ha

/-- C17 witness: unexpired tokens for subject 7, an admin row and a user row with id 7. -/
theorem tokens_scoped_to_audience_witness :
    AdminAuthenticator.Authenticate dotJwt exampleSettings
        [⟨7, 0, "root", 1, "hash", none⟩] (exampleNow + 5)
        (requestWithAuthorization
          ("Bearer " ++ (GenerateToken dotJwt exampleSettings exampleNow 7 AudianceUser).1))
      = Answer.respond 401
    ∧ Authenticator.Authenticate dotJwt exampleSettings
        [⟨7, 0, "+15551234567", "", "", 1⟩] (exampleNow + 5)
        (requestWithAuthorization
          ("Bearer " ++ (GenerateToken dotJwt exampleSettings exampleNow 7 AudianceAdmin).1))
      = Answer.respond 401 :=
  tokens_scoped_to_audience dotJwt exampleSettings [⟨7, 0, "root", 1, "hash", none⟩]
    [⟨7, 0, "+15551234567", "", "", 1⟩] exampleNow (exampleNow + 5) 7
    (requestWithAuthorization
      ("Bearer " ++ (GenerateToken dotJwt exampleSettings exampleNow 7 AudianceUser).1))
    (requestWithAuthorization
      ("Bearer " ++ (GenerateToken dotJwt exampleSettings exampleNow 7 AudianceAdmin).1))
    (by decide) (by decide) (by decide) (by decide)

/-- C18: for a request that parses to admin claims with an issue time and for an admin
row found for the subject, `AdminAuthenticator.Authenticate` answers 401 without
serving the next handler when the issue time is before the `CreatedAt` of the row, or
the row has a `PasswordResetAt` and the issue time is before it.  Hence a request that
carries an admin token generated at `t0` is answered 401 at every time once the row
found for the subject was updated with a new password at a time after `t0`. -/
theorem stale_admin_token_rejected (lib : JwtLib) (appSettings : Config)
    (admins : List Admin) (now : Int) (r : Request) (claims : Claims) (admin : Admin)
    (iat : Int)
    (hparse : JWTService.ParseToken lib appSettings now r = Outcome.ok claims)
    (haud : claims.Audience = AudianceAdmin)
    (hfind : gormAdmin.GetByID admins claims.ID = (some admin, none))
    (hiat : claims.IssuedAt = some iat)
    (hstale : iat * 1000000000 < admin.CreatedAt
      ∨ ∃ resetAt, admin.PasswordResetAt = some resetAt ∧ iat * 1000000000 < resetAt)
    (t0 resetTime later : Int) (id : Nat) (old : Admin) (username : Option String)
    (role : Option Int) (newHash : String) (updated : List Admin) (r' : Request)
    (hrt : lib.decode (GenerateToken lib appSettings t0 id AudianceAdmin).1
      = some (newClaims appSettings t0 id AudianceAdmin,
          lib.sign appSettings.secretKey (newClaims appSettings t0 id AudianceAdmin)))
    (hhdr : r'.HeaderGet "Authorization"
      = "Bearer " ++ (GenerateToken lib appSettings t0 id AudianceAdmin).1)
    (hfind' : gormAdmin.GetByID updated id
      = (some (gormAdmin.Update old resetTime username role (some newHash)), none))
    (hbefore : t0 < resetTime) :
    AdminAuthenticator.Authenticate lib appSettings admins now r = Answer.respond 401
    ∧ AdminAuthenticator.Authenticate lib appSettings updated later r'
        = Answer.respond 401 := by
  constructor
  · exact admin_answer_of_stale lib appSettings admins now r claims admin iat hparse haud
      hfind hiat hstale
  · have hp := parseToken_generated lib appSettings t0 later id AudianceAdmin r' hrt hhdr
    split_ifs at hp
    · refine admin_answer_of_stale lib appSettings updated later r' _
        (gormAdmin.Update old resetTime username role (some newHash))
        (NewNumericDate t0) hp rfl hfind' rfl (Or.inr ⟨resetTime, update_reset _ _ _ _ _, ?_⟩)
      unfold NewNumericDate
      omega
    · exact admin_answer_of_error lib appSettings updated later r' _ hp

/-- C18 witness: an admin token for subject 7 issued one second before the password
reset of admin 7, presented five seconds after it was issued. -/
theorem stale_admin_token_rejected_witness :
    AdminAuthenticator.Authenticate dotJwt exampleSettings
        [⟨7, 0, "root", 1, "hash", some (exampleNow + 1000000000)⟩] (exampleNow + 5000000000)
        (requestWithAuthorization
          ("Bearer " ++ (GenerateToken dotJwt exampleSettings exampleNow 7 AudianceAdmin).1))
      = Answer.respond 401
    ∧ AdminAuthenticator.Authenticate dotJwt exampleSettings
        [gormAdmin.Update ⟨7, 0, "root", 1, "hash", none⟩ (exampleNow + 1000000000) none none
          (some "hash2")]
        (exampleNow + 5000000000)
        (requestWithAuthorization
          ("Bearer " ++ (GenerateToken dotJwt exampleSettings exampleNow 7 AudianceAdmin).1))
      = Answer.respond 401 :=
  stale_admin_token_rejected dotJwt exampleSettings
    [⟨7, 0, "root", 1, "hash", some (exampleNow + 1000000000)⟩] (exampleNow + 5000000000)
    (requestWithAuthorization
      ("Bearer " ++ (GenerateToken dotJwt exampleSettings exampleNow 7 AudianceAdmin).1))
    (newClaims exampleSettings exampleNow 7 AudianceAdmin)
    ⟨7, 0, "root", 1, "hash", some (exampleNow + 1000000000)⟩ 1790000000
    (by decide) (by decide) (by decide) (by decide)
    (Or.inr ⟨exampleNow + 1000000000, rfl, by decide⟩)
    exampleNow (exampleNow + 1000000000) (exampleNow + 5000000000) 7
    ⟨7, 0, "root", 1, "hash", none⟩ none none "hash2"
    [gormAdmin.Update ⟨7, 0, "root", 1, "hash", none⟩ (exampleNow + 1000000000) none none
      (some "hash2")]
    (requestWithAuthorization
      ("Bearer " ++ (GenerateToken dotJwt exampleSettings exampleNow 7 AudianceAdmin).1))
    (by decide) (by decide) (by decide) (by decide)

/-- C19, as stated, fails: in the payload of a user token the `aud` claim is the number
2, not the string `user`, and in the payload of an admin token it is the number 1, not
the string `admin`. -/
theorem aud_claim_is_a_number :
    (marshalClaims (newClaims exampleSettings exampleNow 7 AudianceUser)).lookup "aud"
      = some (JsonValue.number 2)
    ∧ (marshalClaims (newClaims exampleSettings exampleNow 7 AudianceUser)).lookup "aud"
      ≠ some (JsonValue.string "user")
    ∧ (marshalClaims (newClaims exampleSettings exampleNow 7 AudianceAdmin)).lookup "aud"
      = some (JsonValue.number 1)
    ∧ (marshalClaims (newClaims exampleSettings exampleNow 7 AudianceAdmin)).lookup "aud"
      ≠ some (JsonValue.string "admin") := by
  decide

/-- C19, amended: in the payload of every token produced by `GenerateToken(id, audience)`
the `id` claim is the number `id` and the `aud` claim is the number of the audience,
2 for the user audience and 1 for the admin audience. -/
theorem token_payload_id_and_aud (appSettings : Config) (now : Int) (id : Nat)
    (audiance : Audiance) :
    (marshalClaims (newClaims appSettings now id audiance)).lookup "id"
      = some (JsonValue.number id)
    ∧ (marshalClaims (newClaims appSettings now id audiance)).lookup "aud"
      = some (JsonValue.number audiance)
    ∧ AudianceUser = 2 ∧ AudianceAdmin = 1 := by
  refine ⟨?_, ?_, rfl, rfl⟩
  · simp [marshalClaims, newClaims, List.lookup]
  · simp [marshalClaims, newClaims, List.lookup]

/-! ## OTP creation -/

/-- C21: for a user with no unused challenge created after `now` minus 2 minutes, the
repository `Create` appends a new challenge when the user has fewer than 3 challenges
created after `now` minus 10 minutes, and otherwise returns an error and leaves the
table as it was; the older `CreateOTP` does the same with 5 challenges and one hour. -/
theorem otp_create_limit (table : List UserOtp) (user : User) (now : Int) (code : String)
    (hcool : ∀ o ∈ table,
      ¬(o.UserID = user.ID ∧ o.UsedAt = none ∧ now - 2 * 60000000000 < o.CreatedAt)) :
    (challengesSince user.ID (now - 10 * 60000000000) table < 3 →
        gormOtp.Create table user now code
          = (table ++ [⟨table.length + 1, now, code, user.ID, none⟩],
              some ⟨table.length + 1, now, code, user.ID, none⟩, none))
    ∧ (3 ≤ challengesSince user.ID (now - 10 * 60000000000) table →
        (gormOtp.Create table user now code).1 = table
        ∧ (gormOtp.Create table user now code).2.1 = none
        ∧ (gormOtp.Create table user now code).2.2 ≠ none)
    ∧ (challengesSince user.ID (now - 1 * 3600000000000) table < 5 →
        CreateOTP table user now code
          = (table ++ [⟨table.length + 1, now, code, user.ID, none⟩],
              some ⟨table.length + 1, now, code, user.ID, none⟩, none))
    ∧ (5 ≤ challengesSince user.ID (now - 1 * 3600000000000) table →
        (CreateOTP table user now code).1 = table
        ∧ (CreateOTP table user now code).2.1 = none
        ∧ (CreateOTP table user now code).2.2 ≠ none) := by
  have hf := no_recent_find table user now hcool
  rw [create_of_no_recent table user now code hf, createOTP_of_no_recent table user now code hf]
  refine ⟨?_, ?_, ?_, ?_⟩
  · intro h
    rw [if_neg (by omega)]
  · intro h
    rw [if_pos h]
    exact ⟨rfl, rfl, by simp⟩
  · intro h
    rw [if_neg (by omega)]
  · intro h
    rw [if_pos h]
    exact ⟨rfl, rfl, by simp⟩

/-- C21 witness: user 7 has three used challenges from the last ten minutes; the
repository refuses a fourth, the older package still accepts it. -/
theorem otp_create_limit_witness :
    (gormOtp.Create
        [⟨1, exampleNow, "AAAAAA", 7, some exampleNow⟩,
         ⟨2, exampleNow + 1, "BBBBBB", 7, some (exampleNow + 1)⟩,
         ⟨3, exampleNow + 2, "CCCCCC", 7, some (exampleNow + 2)⟩]
        ⟨7, 0, "+15551234567", "", "", 1⟩ (exampleNow + 3) "DDDDDD").2.2 ≠ none
    ∧ (CreateOTP
        [⟨1, exampleNow, "AAAAAA", 7, some exampleNow⟩,
         ⟨2, exampleNow + 1, "BBBBBB", 7, some (exampleNow + 1)⟩,
         ⟨3, exampleNow + 2, "CCCCCC", 7, some (exampleNow + 2)⟩]
        ⟨7, 0, "+15551234567", "", "", 1⟩ (exampleNow + 3) "DDDDDD").2.2 = none :=
  ⟨((otp_create_limit
      [⟨1, exampleNow, "AAAAAA", 7, some exampleNow⟩,
       ⟨2, exampleNow + 1, "BBBBBB", 7, some (exampleNow + 1)⟩,
       ⟨3, exampleNow + 2, "CCCCCC", 7, some (exampleNow + 2)⟩]
      ⟨7, 0, "+15551234567", "", "", 1⟩ (exampleNow + 3) "DDDDDD" (by decide)).2.1
      (by decide)).2.2,
   by
    rw [((otp_create_limit
      [⟨1, exampleNow, "AAAAAA", 7, some exampleNow⟩,
       ⟨2, exampleNow + 1, "BBBBBB", 7, some (exampleNow + 1)⟩,
       ⟨3, exampleNow + 2, "CCCCCC", 7, some (exampleNow + 2)⟩]
      ⟨7, 0, "+15551234567", "", "", 1⟩ (exampleNow + 3) "DDDDDD" (by decide)).2.2.1
      (by decide))]⟩

/-- C22: if at the time of a `Create` call every user has at most one unused challenge
created after that time minus 2 minutes, the same holds for the table the call leaves,
at that time and at every later time, whether the call appended a row or was
rejected. -/
theorem otp_create_keeps_cooldown_invariant (table : List UserOtp) (user : User) (now : Int)
    (code : String) (later : Int) (hlater : now ≤ later)
    (hinv : cooldownInvariant table now) :
    cooldownInvariant (gormOtp.Create table user now code).1 now
    ∧ cooldownInvariant (gormOtp.Create table user now code).1 later := by
  have hnow : cooldownInvariant (gormOtp.Create table user now code).1 now := by
    rcases create_table_cases table user now code with h | ⟨hf, h⟩
    · rw [h]
      exact hinv
    · rw [h]
      exact cooldownInvariant_append table user.ID now _ rfl hf hinv
  exact ⟨hnow, cooldownInvariant_later _ now later hlater hnow⟩

/-- C22 witness: a second request of user 7 three minutes after the first, on a table
that also holds a fresh challenge of user 8. -/
theorem otp_create_keeps_cooldown_invariant_witness :
    cooldownInvariant
      (gormOtp.Create
        [⟨1, exampleNow, "AAAAAA", 7, none⟩, ⟨2, exampleNow + 5, "BBBBBB", 8, none⟩]
        ⟨7, 0, "+15551234567", "", "", 1⟩ (exampleNow + 180000000000) "CCCCCC").1
      (exampleNow + 180000000000) :=
  (otp_create_keeps_cooldown_invariant
    [⟨1, exampleNow, "AAAAAA", 7, none⟩, ⟨2, exampleNow + 5, "BBBBBB", 8, none⟩]
    ⟨7, 0, "+15551234567", "", "", 1⟩ (exampleNow + 180000000000) "CCCCCC"
    (exampleNow + 180000000000) (le_refl _)
    (by
      intro u
      by_cases h7 : u = 7
      · subst h7; decide
      · by_cases h8 : u = 8
        · subst h8; decide
        · simp [List.filter, recentUnused, h7, h8, Ne.symm h7, Ne.symm h8])).1

/-! ## OTP codes, the verify-otp handler, client identity and admin roles -/

/-- C23: for every outcome of the random source both `generateOTPCode` functions return
without an index panic a string of exactly 6 characters, each in `A`-`Z` or `0`-`9`,
which passes the length check of `VerifyOTPRequest.validate`. -/
theorem generated_code_is_six_alphanumerics (draw : Nat → Nat) :
    (∃ code, repository.generateOTPCode draw = Outcome.ok code
      ∧ code.length = 6 ∧ (∀ c ∈ code.data, isCodeChar c = true)
      ∧ isOtpCode code = true ∧ VerifyOTPRequest.validate code = none)
    ∧ (∃ code, db.generateOTPCode draw = Outcome.ok code
      ∧ code.length = 6 ∧ (∀ c ∈ code.data, isCodeChar c = true)
      ∧ isOtpCode code = true ∧ VerifyOTPRequest.validate code = none) := by
  obtain ⟨cs, hcs, hlen, hall⟩ := generateLoop_ok draw (List.range 6)
  have h6 : cs.length = 6 := by simpa using hlen
  have hcode := six_code_chars cs h6 hall
  constructor
  · refine ⟨String.mk cs, ?_, hcode⟩
    simp only [repository.generateOTPCode, hcs]
  · refine ⟨String.mk cs, ?_, hcode⟩
    simp only [db.generateOTPCode, hcs]

/-- C24, as the code behaves: for a request with a well-formed bearer header and a code
of 6 bytes, whenever the session check fails (wrong code, exhausted session, unknown
or expired token) the handler answers 500, not a 4xx status. -/
theorem verify_otp_answers_500_on_session_errors (lib : JwtLib) (appSettings : Config)
    (now : Int) (s : Store) (consume : Nat → Except Error User) (r : Request)
    (token code : String) (err : Error)
    (hhdr : r.HeaderGet "Authorization" = "Bearer " ++ token) (hlen : len code = 6)
    (herr : (CheckUserLoginCode s token code).2.2 = some err) :
    (UserHandler.verifyOTP lib appSettings now s consume r (some code)).2 = 500 := by
  have hne : err ≠ ErrUserDisabled := by
    rcases check_error_kinds s token code err herr with h | h <;> rw [h] <;> decide
  have hv : UserServiceImpl.VerifyOTP s consume token code
      = ((CheckUserLoginCode s token code).1, none, some err) := by
    simp only [UserServiceImpl.VerifyOTP, herr]
  rw [verifyOTP_shape lib appSettings now s consume r token code hhdr hlen, hv]
  simp [hne]

/-- C24 witness: a wrong code on a waiting session, any code on an exhausted session,
and an unknown session token are each answered 500. -/
theorem verify_otp_answers_500_on_session_errors_witness :
    (UserHandler.verifyOTP dotJwt exampleSettings exampleNow (waitingSession 0) exampleConsume
        (requestWithAuthorization ("Bearer " ++ "k")) (some "XXXXXX")).2 = 500
    ∧ (UserHandler.verifyOTP dotJwt exampleSettings exampleNow (waitingSession 3)
        exampleConsume (requestWithAuthorization ("Bearer " ++ "k")) (some "ABC123")).2 = 500
    ∧ (UserHandler.verifyOTP dotJwt exampleSettings exampleNow (waitingSession 0)
        exampleConsume (requestWithAuthorization ("Bearer " ++ "unknown"))
        (some "ABC123")).2 = 500 :=
  ⟨verify_otp_answers_500_on_session_errors dotJwt exampleSettings exampleNow
      (waitingSession 0) exampleConsume (requestWithAuthorization ("Bearer " ++ "k"))
      "k" "XXXXXX" "invalid code" (by decide) (by decide) (by decide),
   verify_otp_answers_500_on_session_errors dotJwt exampleSettings exampleNow
      (waitingSession 3) exampleConsume (requestWithAuthorization ("Bearer " ++ "k"))
      "k" "ABC123" "invalid code" (by decide) (by decide) (by decide),
   verify_otp_answers_500_on_session_errors dotJwt exampleSettings exampleNow
      (waitingSession 0) exampleConsume (requestWithAuthorization ("Bearer " ++ "unknown"))
      "unknown" "ABC123" "redis: nil" (by decide) (by decide) (by decide)⟩

/-- C25: with `allowForwarded = false` the identity is the host part of `RemoteAddr`
(the whole of it when it does not split), whatever the headers, so two requests with
the same `RemoteAddr` get the same identity.  With `allowForwarded = true` a non-empty
`X-Forwarded-For` value that parses as an IP gives the identity (the `String` of the
IP); else a non-empty `X-Real-IP` value that parses as an IP; else the host part of
`RemoteAddr`. -/
theorem client_identity_resolution (net : NetLib) (r : Request)
    (headers headers' : String → Option String) (remoteAddr : String) :
    getClientIP net ⟨headers, remoteAddr⟩ false = getClientIP net ⟨headers', remoteAddr⟩ false
    ∧ getClientIP net r false
        = (match net.SplitHostPort r.RemoteAddr with
            | Except.error _ => r.RemoteAddr
            | Except.ok (ip, _) => ip)
    ∧ (∀ ip, r.HeaderGet "X-Forwarded-For" ≠ "" →
        net.ParseIP (r.HeaderGet "X-Forwarded-For") = some ip →
        getClientIP net r true = net.IPString ip)
    ∧ (∀ ip, (r.HeaderGet "X-Forwarded-For" = ""
          ∨ net.ParseIP (r.HeaderGet "X-Forwarded-For") = none) →
        r.HeaderGet "X-Real-IP" ≠ "" → net.ParseIP (r.HeaderGet "X-Real-IP") = some ip →
        getClientIP net r true = net.IPString ip)
    ∧ ((r.HeaderGet "X-Forwarded-For" = ""
          ∨ net.ParseIP (r.HeaderGet "X-Forwarded-For") = none) →
        (r.HeaderGet "X-Real-IP" = "" ∨ net.ParseIP (r.HeaderGet "X-Real-IP") = none) →
        getClientIP net r true = getClientIP net r false) := by
  refine ⟨rfl, rfl, ?_, ?_, ?_⟩
  · intro ip hne hp
    simp [getClientIP, hne, hp]
  · intro ip hx hne hp
    rcases hx with hx | hx
    · simp [getClientIP, hx, hne, hp]
    · by_cases hxe : r.HeaderGet "X-Forwarded-For" = ""
      · simp [getClientIP, hxe, hne, hp]
      · simp [getClientIP, hxe, hx, hne, hp]
  · intro hx hr
    have h1 : (if r.HeaderGet "X-Forwarded-For" ≠ "" then
        net.ParseIP (r.HeaderGet "X-Forwarded-For") else none) = none := by
      rcases hx with hx | hx
      · simp [hx]
      · simp [hx]
    have h2 : (if r.HeaderGet "X-Real-IP" ≠ "" then
        net.ParseIP (r.HeaderGet "X-Real-IP") else none) = none := by
      rcases hr with hr | hr
      · simp [hr]
      · simp [hr]
    simp only [getClientIP, h1, h2]
    rfl

/-- C25 witness: a spoofed `X-Forwarded-For` is used only when forwarding is allowed. -/
theorem client_identity_resolution_witness :
    getClientIP exampleNet (requestFrom (some "203.0.113.7") none "198.51.100.9:4711") true
      = "203.0.113.7"
    ∧ getClientIP exampleNet (requestFrom (some "203.0.113.7") none "198.51.100.9:4711") false
      = getClientIP exampleNet (requestFrom none (some "10.0.0.1") "198.51.100.9:4711") false :=
  ⟨(client_identity_resolution exampleNet
      (requestFrom (some "203.0.113.7") none "198.51.100.9:4711")
      (fun _ => none) (fun _ => none) "").2.2.1 "203.0.113.7" (by decide) rfl,
   (client_identity_resolution exampleNet
      (requestFrom (some "203.0.113.7") none "198.51.100.9:4711")
      (requestFrom (some "203.0.113.7") none "198.51.100.9:4711").Header
      (requestFrom none (some "10.0.0.1") "198.51.100.9:4711").Header
      "198.51.100.9:4711").1⟩

/-- C26: when the limiter check returns no error, the middleware sets
`X-RateLimit-Limit` to `maxRequests`, `X-RateLimit-Remaining` to the returned
remaining value, which is not negative, and `X-RateLimit-Reset`, whether the request is
allowed or denied; a denied request is answered 429 and the next handler is not
served; an allowed request is handed to the next handler exactly once and the
middleware writes no status. -/
theorem rate_limit_middleware_headers (net : NetLib) (store : CounterStore) (redisNow : Nat)
    (now : Int) (pre : String) (maxRequests windowSeconds : Int) (allowForwarded : Bool)
    (r : Request)
    (hok : (CheckRateLimit store redisNow (GetRateLimitKey pre (getClientIP net r allowForwarded))
      maxRequests windowSeconds).2.2.2 = none) :
    (RateLimit net store redisNow now pre maxRequests windowSeconds allowForwarded r).headers.lookup
        "X-RateLimit-Limit" = some (toString maxRequests)
    ∧ (RateLimit net store redisNow now pre maxRequests windowSeconds allowForwarded r).headers.lookup
        "X-RateLimit-Remaining"
      = some (toString (CheckRateLimit store redisNow
          (GetRateLimitKey pre (getClientIP net r allowForwarded))
          maxRequests windowSeconds).2.2.1)
    ∧ 0 ≤ (CheckRateLimit store redisNow
          (GetRateLimitKey pre (getClientIP net r allowForwarded))
          maxRequests windowSeconds).2.2.1
    ∧ ((RateLimit net store redisNow now pre maxRequests windowSeconds allowForwarded
          r).headers.lookup "X-RateLimit-Reset").isSome = true
    ∧ ((CheckRateLimit store redisNow (GetRateLimitKey pre (getClientIP net r allowForwarded))
          maxRequests windowSeconds).2.1 = false →
        (RateLimit net store redisNow now pre maxRequests windowSeconds allowForwarded r).status
          = some 429
        ∧ (RateLimit net store redisNow now pre maxRequests windowSeconds allowForwarded
            r).nextServed = 0)
    ∧ ((CheckRateLimit store redisNow (GetRateLimitKey pre (getClientIP net r allowForwarded))
          maxRequests windowSeconds).2.1 = true →
        (RateLimit net store redisNow now pre maxRequests windowSeconds allowForwarded r).status
          = none
        ∧ (RateLimit net store redisNow now pre maxRequests windowSeconds allowForwarded
            r).nextServed = 1) := by
  have hnn := checkRateLimit_remaining_nonneg store redisNow
    (GetRateLimitKey pre (getClientIP net r allowForwarded)) maxRequests windowSeconds
  cases hallow : (CheckRateLimit store redisNow
      (GetRateLimitKey pre (getClientIP net r allowForwarded)) maxRequests windowSeconds).2.1
  · simp [RateLimit, hok, hallow, List.lookup, hnn]
  · simp [RateLimit, hok, hallow, List.lookup, hnn]

/-- C26 witness: the first request of a client under the `auth` limits is served. -/
theorem rate_limit_middleware_headers_witness :
    (RateLimit exampleNet (fun _ => none) 0 exampleNow "auth" 5 60 true
        (requestFrom none none "198.51.100.9:4711")).headers.lookup "X-RateLimit-Remaining"
      = some (toString (CheckRateLimit (fun _ => none) 0
          (GetRateLimitKey "auth" (getClientIP exampleNet
            (requestFrom none none "198.51.100.9:4711") true)) 5 60).2.2.1) :=
  (rate_limit_middleware_headers exampleNet (fun _ => none) 0 exampleNow "auth" 5 60 true
    (requestFrom none none "198.51.100.9:4711") (by decide)).2.1

/-- The guard of `AuthorizeSudo`: the next handler is served exactly for an admin whose
role is at most `RoleSudoAdmin`, and 403 is answered otherwise. -/
theorem authorizeSudo_iff (admin : Option Admin) :
    (∀ a, AdminAuthenticator.AuthorizeSudo admin = Answer.next a ↔
        admin = some a ∧ a.Role ≤ RoleSudoAdmin)
    ∧ (AdminAuthenticator.AuthorizeSudo admin = Answer.respond 403 ↔
        admin = none ∨ ∃ a, admin = some a ∧ a.Role > RoleSudoAdmin) := by
  refine ⟨?_, ?_⟩
  · intro a
    cases admin with
    | none => simp [AdminAuthenticator.AuthorizeSudo]
    | some b =>
      by_cases h : b.Role > RoleSudoAdmin
      · simp only [AdminAuthenticator.AuthorizeSudo, if_pos h]
        constructor
        · intro hc
          cases hc
        · rintro ⟨hb, ha⟩
          cases hb
          exact absurd h (not_lt.2 ha)
      · simp only [AdminAuthenticator.AuthorizeSudo, if_neg h]
        constructor
        · intro hc
          cases hc
          exact ⟨rfl, not_lt.1 h⟩
        · rintro ⟨hb, _⟩
          cases hb
          rfl
  · cases admin with
    | none => simp [AdminAuthenticator.AuthorizeSudo]
    | some b =>
      by_cases h : b.Role > RoleSudoAdmin
      · simp [AdminAuthenticator.AuthorizeSudo, h]
      · simp [AdminAuthenticator.AuthorizeSudo, h]

/-- C27, as stated, fails: the claim covers role values outside the three defined
roles, and an admin with role 0, which is neither Super nor Sudo, is served the next
handler. -/
theorem authorize_sudo_serves_role_zero :
    AdminAuthenticator.AuthorizeSudo (some ⟨9, 0, "ghost", 0, "hash", none⟩)
        = Answer.next ⟨9, 0, "ghost", 0, "hash", none⟩
    ∧ (0 : Int) ≠ RoleSuperAdmin ∧ (0 : Int) ≠ RoleSudoAdmin := by
  decide

/-- C27, amended: for every role value of at least 1, so for the three defined roles
and for every larger value, `AuthorizeSudo` serves the next handler exactly when the
context holds an admin whose role is Super or Sudo, and otherwise (no admin, Visitor,
or a larger value) answers 403 without serving it. -/
theorem authorize_sudo_from_role_one (admin : Option Admin)
    (hrole : ∀ a, admin = some a → 1 ≤ a.Role) :
    (∀ a, AdminAuthenticator.AuthorizeSudo admin = Answer.next a ↔
        admin = some a ∧ (a.Role = RoleSuperAdmin ∨ a.Role = RoleSudoAdmin))
    ∧ (AdminAuthenticator.AuthorizeSudo admin = Answer.respond 403 ↔
        ¬ ∃ a, admin = some a ∧ (a.Role = RoleSuperAdmin ∨ a.Role = RoleSudoAdmin))
    ∧ ((∃ a, AdminAuthenticator.AuthorizeSudo admin = Answer.next a)
        ∨ AdminAuthenticator.AuthorizeSudo admin = Answer.respond 403) := by
  have hval : ∀ a, admin = some a →
      (a.Role ≤ RoleSudoAdmin ↔ (a.Role = RoleSuperAdmin ∨ a.Role = RoleSudoAdmin)) := by
    intro a ha
    have := hrole a ha
    unfold RoleSudoAdmin RoleSuperAdmin
    omega
  obtain ⟨hnext, hdeny⟩ := authorizeSudo_iff admin
  refine ⟨?_, ?_, ?_⟩
  · intro a
    rw [hnext a]
    constructor
    · rintro ⟨ha, hle⟩
      exact ⟨ha, (hval a ha).1 hle⟩
    · rintro ⟨ha, hr⟩
      exact ⟨ha, (hval a ha).2 hr⟩
  · rw [hdeny]
    constructor
    · rintro (hn | ⟨a, ha, hgt⟩)
      · rintro ⟨b, hb, _⟩
        rw [hn] at hb
        cases hb
      · rintro ⟨b, hb, hr⟩
        rw [ha] at hb
        cases hb
        exact absurd ((hval a ha).2 hr) (not_le.2 hgt)
    · intro hno
      cases hadm : admin with
      | none => exact Or.inl rfl
      | some a =>
        refine Or.inr ⟨a, rfl, ?_⟩
        by_contra hle
        exact hno ⟨a, hadm, (hval a hadm).1 (not_lt.1 hle)⟩
  · cases admin with
    | none => exact Or.inr rfl
    | some a =>
      by_cases h : a.Role > RoleSudoAdmin
      · exact Or.inr (by simp [AdminAuthenticator.AuthorizeSudo, h])
      · exact Or.inl ⟨a, by simp [AdminAuthenticator.AuthorizeSudo, h]⟩

/-- C27 witness: a Sudo admin is served, and an admin with the undefined role 7 is
answered 403. -/
theorem authorize_sudo_from_role_one_witness :
    (AdminAuthenticator.AuthorizeSudo (some ⟨1, 0, "root", RoleSudoAdmin, "hash", none⟩)
        = Answer.next ⟨1, 0, "root", RoleSudoAdmin, "hash", none⟩)
    ∧ AdminAuthenticator.AuthorizeSudo (some ⟨2, 0, "odd", 7, "hash", none⟩)
        = Answer.respond 403 :=
  ⟨((authorize_sudo_from_role_one (some ⟨1, 0, "root", RoleSudoAdmin, "hash", none⟩)
      (fun a ha => by
        cases ha
        decide)).1 ⟨1, 0, "root", RoleSudoAdmin, "hash", none⟩).2 ⟨rfl, Or.inr rfl⟩,
   (authorize_sudo_from_role_one (some ⟨2, 0, "odd", 7, "hash", none⟩)
      (fun a ha => by
        cases ha
        decide)).2.1.2
      (by
        rintro ⟨a, ha, hr⟩
        cases ha
        revert hr
        decide)⟩

/-- C28, as the code behaves: for a request that parses to admin claims with an issue
time whose subject id matches no admin row, `GetByID` returns no admin and no error
and `Authenticate` panics on the nil admin instead of answering 401. -/
theorem missing_admin_row_panics (lib : JwtLib) (appSettings : Config) (admins : List Admin)
    (now : Int) (r : Request) (claims : Claims) (iat : Int)
    (hparse : JWTService.ParseToken lib appSettings now r = Outcome.ok claims)
    (haud : claims.Audience = AudianceAdmin) (hiat : claims.IssuedAt = some iat)
    (hmiss : ∀ a ∈ admins, a.ID ≠ claims.ID) :
    gormAdmin.GetByID admins claims.ID = (none, none)
    ∧ AdminAuthenticator.Authenticate lib appSettings admins now r
        = Answer.panic "invalid memory address or nil pointer dereference" := by
  have hfind : gormAdmin.GetByID admins claims.ID = (none, none) := by
    simp only [gormAdmin.GetByID, Prod.mk.injEq, and_true]
    rw [List.find?_eq_none]
    intro a ha
    simpa using hmiss a ha
  refine ⟨hfind, ?_⟩
  simp [AdminAuthenticator.Authenticate, hparse, haud, hfind, hiat]

/-- C28 witness: an unexpired admin token for subject 7 and an empty admin table. -/
theorem missing_admin_row_panics_witness :
    AdminAuthenticator.Authenticate dotJwt exampleSettings [] (exampleNow + 5)
        (requestWithAuthorization
          ("Bearer " ++ (GenerateToken dotJwt exampleSettings exampleNow 7 AudianceAdmin).1))
      = Answer.panic "invalid memory address or nil pointer dereference" :=
  (missing_admin_row_panics dotJwt exampleSettings [] (exampleNow + 5)
    (requestWithAuthorization
      ("Bearer " ++ (GenerateToken dotJwt exampleSettings exampleNow 7 AudianceAdmin).1))
    (newClaims exampleSettings exampleNow 7 AudianceAdmin) 1790000000
    (by decide) (by decide) (by decide) (by simp)).2

/-! ## Search parameters and phone numbers -/

/-- C29: after `SetDefaults` the `Limit` is between 1 and 100, the `Offset` is at least 0,
`SortBy` is one of `id`, `phone_number`, `first_name`, `last_name`, `status` and
`SortOrder` is `asc` or `desc`, so the `ORDER BY` clause of `Search` is these two words;
fields already in range and the filter fields are unchanged, and applying
`SetDefaults` twice gives the same as applying it once. -/
theorem set_defaults_normalises (p : UserSearchParams) :
    (1 ≤ p.SetDefaults.Limit ∧ p.SetDefaults.Limit ≤ 100)
    ∧ 0 ≤ p.SetDefaults.Offset
    ∧ (p.SetDefaults.SortBy = "id" ∨ p.SetDefaults.SortBy = "phone_number"
        ∨ p.SetDefaults.SortBy = "first_name" ∨ p.SetDefaults.SortBy = "last_name"
        ∨ p.SetDefaults.SortBy = "status")
    ∧ (p.SetDefaults.SortOrder = "asc" ∨ p.SetDefaults.SortOrder = "desc")
    ∧ orderClause p.SetDefaults = p.SetDefaults.SortBy ++ " " ++ p.SetDefaults.SortOrder
    ∧ (1 ≤ p.Limit → p.Limit ≤ 100 → p.SetDefaults.Limit = p.Limit)
    ∧ (0 ≤ p.Offset → p.SetDefaults.Offset = p.Offset)
    ∧ ((p.SortBy = "id" ∨ p.SortBy = "phone_number" ∨ p.SortBy = "first_name"
          ∨ p.SortBy = "last_name" ∨ p.SortBy = "status") →
        p.SetDefaults.SortBy = p.SortBy)
    ∧ ((p.SortOrder = "asc" ∨ p.SortOrder = "desc") → p.SetDefaults.SortOrder = p.SortOrder)
    ∧ (p.SetDefaults.ID = p.ID ∧ p.SetDefaults.PhoneNumber = p.PhoneNumber
        ∧ p.SetDefaults.FirstName = p.FirstName ∧ p.SetDefaults.LastName = p.LastName
        ∧ p.SetDefaults.Status = p.Status)
    ∧ p.SetDefaults.SetDefaults = p.SetDefaults := by
  have hlim : 1 ≤ p.SetDefaults.Limit ∧ p.SetDefaults.Limit ≤ 100 := by
    rw [setDefaults_eq]
    simp only
    split_ifs <;> omega
  have hoff : 0 ≤ p.SetDefaults.Offset := by
    rw [setDefaults_eq]
    simp only
    split_ifs <;> omega
  have hby : mapIndex [("id", true), ("phone_number", true), ("first_name", true),
      ("last_name", true), ("status", true)] p.SetDefaults.SortBy = true := by
    rw [setDefaults_eq]
    simp only
    split_ifs with h
    · exact h
    · decide
  have hord : mapIndex [("asc", true), ("desc", true)] p.SetDefaults.SortOrder = true := by
    rw [setDefaults_eq]
    simp only
    split_ifs with h
    · exact h
    · decide
  have hby' := (mapIndex_sortBy _).1 hby
  have hord' := (mapIndex_sortOrder _).1 hord
  refine ⟨hlim, hoff, hby', hord', ?_, ?_, ?_, ?_, ?_, ?_, ?_⟩
  · have h1 : p.SetDefaults.SortBy ≠ "" := by
      rcases hby' with h | h | h | h | h <;> rw [h] <;> decide
    have h2 : p.SetDefaults.SortOrder ≠ "" := by
      rcases hord' with h | h <;> rw [h] <;> decide
    simp [orderClause, h1, h2]
  · intro h1 h2
    rw [setDefaults_eq]
    simp only
    rw [if_neg (by omega)]
  · intro h
    rw [setDefaults_eq]
    simp only
    rw [if_neg (by omega)]
  · intro h
    rw [setDefaults_eq]
    simp only
    rw [if_pos ((mapIndex_sortBy _).2 h)]
  · intro h
    rw [setDefaults_eq]
    simp only
    rw [if_pos ((mapIndex_sortOrder _).2 h)]
  · rw [setDefaults_eq]
    exact ⟨rfl, rfl, rfl, rfl, rfl⟩
  · exact setDefaults_fixed _ hlim.1 hlim.2 hoff hby hord

/-- C30: `validatePhoneNumber` accepts exactly a plus sign, one digit from 1 to 9 and
then 6 to 14 ASCII digits; an accepted string has 8 to 16 characters, all of them the
plus sign or ASCII digits.  It accepts `+15551234567` and rejects the empty string, a
number without the plus sign, a number starting with `+0`, and strings with a space, a
letter, a non-ASCII digit or a trailing newline. -/
theorem phone_number_validation (s : String) :
    RequestOTPRequest.validatePhoneNumber s = isInternationalNumber s
    ∧ (RequestOTPRequest.validatePhoneNumber s = true →
        8 ≤ s.length ∧ s.length ≤ 16
        ∧ ∀ c ∈ s.data, c = '+' ∨ isAsciiDigit c = true)
    ∧ RequestOTPRequest.validatePhoneNumber "+15551234567" = true
    ∧ RequestOTPRequest.validatePhoneNumber "" = false
    ∧ RequestOTPRequest.validatePhoneNumber "15551234567" = false
    ∧ RequestOTPRequest.validatePhoneNumber "+05551234567" = false
    ∧ RequestOTPRequest.validatePhoneNumber "+1555 1234567" = false
    ∧ RequestOTPRequest.validatePhoneNumber "+1555123456a" = false
    ∧ RequestOTPRequest.validatePhoneNumber "+1555123456٧" = false
    ∧ RequestOTPRequest.validatePhoneNumber "+15551234567\n" = false := by
  refine ⟨validatePhoneNumber_eq s, ?_, by decide, by decide, by decide, by decide, by decide,
    by decide, by decide, by decide⟩
  intro h
  rw [validatePhoneNumber_eq] at h
  unfold isInternationalNumber at h
  split at h
  · next d rest hs =>
    simp only [Bool.and_eq_true, decide_eq_true_eq, List.all_eq_true] at h
    obtain ⟨⟨⟨⟨hd1, hd9⟩, hall⟩, h6⟩, h14⟩ := h
    have hlen : s.length = rest.length + 2 := by
      simp [String.length, hs]
    refine ⟨by omega, by omega, ?_⟩
    intro c hc
    rw [hs] at hc
    rcases List.mem_cons.1 hc with hc | hc
    · exact Or.inl hc
    · rcases List.mem_cons.1 hc with hc | hc
      · right
        rw [hc]
        simp only [isAsciiDigit, Bool.and_eq_true, decide_eq_true_eq]
        exact ⟨le_trans (by decide) hd1, hd9⟩
      · exact Or.inr (hall c hc)
  · cases h

end OtpServer
